import Mathlib

/-!
Verification development for a storage-cache replacement simulator consisting of
three policy engines: classic LIRS (package lirs), two divergent LIRS-WSR
variants (package lirswsr contains two versions of the same engine; they are
modelled separately as LIRSWSR1, the first one in the file, and LIRSWSR2, the
second), and an LRU baseline (package lru).

All engines are shallowly embedded as pure functions over explicit state
records. The Go library github.com/secnot/orderedmap is modelled as an
association list ordered from oldest (head) to newest (last) entry; keys are
unique because Set updates an existing key in place. Go maps used as sets
(the LIR and HIR maps, whose values are always 1) are modelled as duplicate-free
lists of keys. Go ints are modelled as Int for block addresses and Nat for the
counters (every counter mutation in the source is an increment, except the
cold-start miss correction which decrements a counter that was just
incremented, so Nat subtraction is exact there). The unused `cache` field of
the engine structs (written at construction only, never read) is omitted.
PrintToFile functions (pure I/O reporting) are not modelled.
-/

/-- The recency ordered container (github.com/secnot/orderedmap), oldest first. -/
abbrev OrderedMap (V : Type) := List (Int × V)

namespace OrderedMap

/-- Point lookup by key. -/
def Get {V : Type} : OrderedMap V → Int → Option V
  | [], _ => none
  | (k, v) :: rest, key => if k = key then some v else Get rest key

/-- Insert at the newest position if the key is absent, otherwise overwrite the
value while keeping the entry position. -/
def Set {V : Type} : OrderedMap V → Int → V → OrderedMap V
  | [], key, v => [(key, v)]
  | (k, w) :: rest, key, v => if k = key then (k, v) :: rest else (k, w) :: Set rest key v

/-- Remove an entry by key. -/
def Delete {V : Type} : OrderedMap V → Int → OrderedMap V
  | [], _ => []
  | (k, w) :: rest, key => if k = key then rest else (k, w) :: Delete rest key

/-- Move an existing entry to the newest position, keeping its value; no-op if
the key is absent. -/
def MoveLast {V : Type} (m : OrderedMap V) (key : Int) : OrderedMap V :=
  match Get m key with
  | none => m
  | some v => Delete m key ++ [(key, v)]

/-- Remove and return the oldest entry. -/
def PopFirst {V : Type} : OrderedMap V → Option (Int × V) × OrderedMap V
  | [] => (none, [])
  | e :: rest => (some e, rest)

/-- Return the oldest entry without removing it. -/
def GetFirst {V : Type} (m : OrderedMap V) : Option (Int × V) := m.head?

/-- Mutate the value stored under a key in place (models updating a Go struct
through the stored pointer); no-op if the key is absent. -/
def Update {V : Type} : OrderedMap V → Int → (V → V) → OrderedMap V
  | [], _, _ => []
  | (k, v) :: rest, key, f => if k = key then (k, f v) :: rest else (k, v) :: Update rest key f

end OrderedMap

/-- One access record fed to the engines (simulator.Trace): block address and
operation ("R" or "W"). -/
structure Trace where
  Addr : Int
  Op : String
deriving DecidableEq, Repr

/-- Go map-as-set insertion `m[k] = 1`: no-op when the key is present. -/
def mapInsert (s : List Int) (k : Int) : List Int :=
  if k ∈ s then s else k :: s

/-- Go map-as-set removal `delete(m, k)`. -/
def mapDelete (s : List Int) (k : Int) : List Int :=
  s.erase k

/-! ## The classic LIRS engine (package lirs, src/unnamed/part_000) -/

/-- State of the LIRS engine. -/
structure LIRS where
  cacheSize : Nat
  LIRSize : Nat
  HIRSize : Nat
  hit : Nat
  miss : Nat
  writeCount : Nat
  orderedStack : OrderedMap Nat
  orderedList : OrderedMap Nat
  LIR : List Int
  HIR : List Int
deriving DecidableEq, Repr

namespace LIRS

/-- lirs.NewLIRS. The source aborts fatally when HIRSize is outside [0,100];
the capacity formulas below are what it computes for valid arguments. -/
def NewLIRS (cacheSize HIRSize : Nat) : LIRS :=
  { cacheSize := cacheSize
    LIRSize := (100 - HIRSize) * cacheSize / 100
    HIRSize := HIRSize * cacheSize / 100
    hit := 0
    miss := 0
    writeCount := 0
    orderedStack := []
    orderedList := []
    LIR := []
    HIR := [] }

/-- lirs.addToStack. -/
def addToStack (s : LIRS) (block : Int) : LIRS :=
  if (OrderedMap.Get s.orderedStack block).isSome then
    { s with orderedStack := OrderedMap.MoveLast s.orderedStack block }
  else
    { s with orderedStack := OrderedMap.Set s.orderedStack block 1 }

/-- lirs.addToList. -/
def addToList (s : LIRS) (block : Int) : LIRS :=
  let s := if s.orderedList.length = s.HIRSize then
      { s with orderedList := (OrderedMap.PopFirst s.orderedList).2 }
    else s
  { s with orderedList := OrderedMap.Set s.orderedList block 1 }

/-- lirs.removeFromList. -/
def removeFromList (s : LIRS) (block : Int) : LIRS :=
  { s with orderedList := OrderedMap.Delete s.orderedList block }

/-- lirs.makeLIR: insert into the LIR set, remove from list Q, remove from the
HIR set. -/
def makeLIR (s : LIRS) (block : Int) : LIRS :=
  let s := { s with LIR := mapInsert s.LIR block }
  let s := removeFromList s block
  { s with HIR := mapDelete s.HIR block }

/-- lirs.makeHIR. -/
def makeHIR (s : LIRS) (block : Int) : LIRS :=
  { s with HIR := mapInsert s.HIR block, LIR := mapDelete s.LIR block }

/-- lirs.stackPruning: pop entries from the oldest end of S while they are not
in the LIR set (the source iterates and pops the first entry, which is
equivalent to dropWhile). -/
def stackPruning (s : LIRS) : LIRS :=
  { s with orderedStack := s.orderedStack.dropWhile fun e => !(decide (e.1 ∈ s.LIR)) }

/-- lirs.condition1: pop the oldest entry of S (the match inlines
OrderedMap.PopFirst), on removeLIR demote it to HIR and append it to Q, then
prune the stack. -/
def condition1 (s : LIRS) (removeLIR : Bool) : LIRS × Option String :=
  match s.orderedStack with
  | [] => (s, some "orderedStack is empty")
  | (key, _) :: rest =>
    let s := { s with orderedStack := rest }
    let s := if removeLIR then
        let s := makeHIR s key
        { s with orderedList := OrderedMap.MoveLast (OrderedMap.Set s.orderedList key 1) key }
      else s
    (stackPruning s, none)

/-- lirs.handleLIRBlock (the match on the stack inlines OrderedMap.GetFirst). -/
def handleLIRBlock (s : LIRS) (block : Int) : LIRS × Option String :=
  let s := { s with hit := s.hit + 1 }
  match s.orderedStack with
  | [] => (s, some "orderedStack is empty")
  | (key, _) :: _ =>
    let s := if key = block then (condition1 s false).1 else s
    (addToStack s block, none)

/-- lirs.handleHIRResidentBlock. -/
def handleHIRResidentBlock (s : LIRS) (block : Int) : LIRS :=
  let s := { s with hit := s.hit + 1 }
  let s := if (OrderedMap.Get s.orderedStack block).isSome then
      let s := makeLIR s block
      let s := removeFromList s block
      (condition1 s true).1
    else
      { s with orderedList := OrderedMap.MoveLast s.orderedList block }
  addToStack s block

/-- lirs.handleHIRNonResidentBlock. -/
def handleHIRNonResidentBlock (s : LIRS) (block : Int) : LIRS :=
  let s := { s with miss := s.miss + 1 }
  let s := addToList s block
  let s := if (OrderedMap.Get s.orderedStack block).isSome then
      let s := makeLIR s block
      let s := removeFromList s block
      (condition1 s true).1
    else
      makeHIR s block
  addToStack s block

/-- lirs.Get: the single entry point per access record. Note that the source
discards the error returned by handleLIRBlock and always returns nil. -/
def Get (s : LIRS) (t : Trace) : LIRS × Option String :=
  let block := t.Addr
  let op := t.Op
  let s := if op = "W" then { s with writeCount := s.writeCount + 1 } else s
  if s.LIR.length < s.LIRSize then
    let s := { s with miss := s.miss + 1 }
    let s := if block ∈ s.LIR then { s with miss := s.miss - 1, hit := s.hit + 1 } else s
    let s := addToStack s block
    (makeLIR s block, none)
  else if block ∈ s.LIR then
    ((handleLIRBlock s block).1, none)
  else if (OrderedMap.Get s.orderedList block).isSome then
    (handleHIRResidentBlock s block, none)
  else
    (handleHIRNonResidentBlock s block, none)

/-- Drive the engine over a trace one record at a time, as the external
driver does. -/
def run (s : LIRS) (tr : List Trace) : LIRS :=
  tr.foldl (fun s t => (Get s t).1) s

end LIRS

/-! ## The LIRS-WSR engine, first variant (package lirswsr, first file section) -/

/-- Per-block metadata kept in stack S and list Q by the LIRS-WSR engine.
The second variant names the last field `access` (lowercase); the struct shape
is identical, so one structure serves both variants. -/
structure BlockInfo where
  Address : Int
  Operation : String
  DirtyPage : Bool
  ColdFlag : Bool
  Access : Nat
deriving DecidableEq, Repr

/-- The Go BlockInfo literal with only ColdFlag set to true and Access set to
0, used to reset a block's metadata to cold: every omitted field gets its zero
value (Address 0, Operation "", DirtyPage false). -/
def resetColdInfo : BlockInfo :=
  { Address := 0, Operation := "", DirtyPage := false, ColdFlag := true, Access := 0 }

/-- Values stored in list Q by LIRS-WSR: addToList stores a BlockInfo, while
condition1/condition3 store the bare int 1 (the Go map is keyed on
interface values). -/
inductive QVal where
  | num : Nat → QVal
  | info : BlockInfo → QVal
deriving DecidableEq, Repr

/-- State of the first LIRS-WSR variant. -/
structure LIRSWSR1 where
  cacheSize : Nat
  LIRSize : Nat
  HIRSize : Nat
  hit : Nat
  miss : Nat
  writeCount : Nat
  orderedStack : OrderedMap BlockInfo
  orderedList : OrderedMap QVal
  LIR : List Int
  HIR : List Int
deriving DecidableEq, Repr

namespace LIRSWSR1

/-- lirswsr.NewLIRSWSR (first variant). The source aborts fatally when HIRSize
is outside [0,100]. -/
def NewLIRSWSR (cacheSize HIRSize : Nat) : LIRSWSR1 :=
  { cacheSize := cacheSize
    LIRSize := (100 - HIRSize) * cacheSize / 100
    HIRSize := HIRSize * cacheSize / 100
    hit := 0
    miss := 0
    writeCount := 0
    orderedStack := []
    orderedList := []
    LIR := []
    HIR := [] }

/-- lirswsr.addToStack (first variant): on a repeat touch increment the access
count in place and move the entry to the newest position; on first insertion
count a write for op "W" and insert dirty-cold metadata. -/
def addToStack (s : LIRSWSR1) (block : Int) (op : String) : LIRSWSR1 :=
  if (OrderedMap.Get s.orderedStack block).isSome then
    let s := { s with orderedStack :=
      OrderedMap.Update s.orderedStack block fun i => { i with Access := i.Access + 1 } }
    { s with orderedStack := OrderedMap.MoveLast s.orderedStack block }
  else if op = "W" then
    { s with writeCount := s.writeCount + 1
             orderedStack := OrderedMap.Set s.orderedStack block
               { Address := block, Operation := op, DirtyPage := true, ColdFlag := true, Access := 0 } }
  else
    { s with orderedStack := OrderedMap.Set s.orderedStack block
               { Address := block, Operation := op, DirtyPage := false, ColdFlag := true, Access := 0 } }

/-- lirswsr.addToList (first variant). -/
def addToList (s : LIRSWSR1) (block : Int) (op : String) : LIRSWSR1 :=
  let s := if s.orderedList.length = s.HIRSize then
      { s with orderedList := (OrderedMap.PopFirst s.orderedList).2 }
    else s
  if op = "W" then
    { s with writeCount := s.writeCount + 1
             orderedList := OrderedMap.Set s.orderedList block (QVal.info
               { Address := block, Operation := op, DirtyPage := true, ColdFlag := true, Access := 0 }) }
  else
    { s with orderedList := OrderedMap.Set s.orderedList block (QVal.info
               { Address := block, Operation := op, DirtyPage := false, ColdFlag := true, Access := 0 }) }

/-- lirswsr.removeFromList (first variant). -/
def removeFromList (s : LIRSWSR1) (block : Int) : LIRSWSR1 :=
  { s with orderedList := OrderedMap.Delete s.orderedList block }

/-- lirswsr.makeLIR (first variant): unlike the lirs package, this one does not
remove the block from list Q. -/
def makeLIR (s : LIRSWSR1) (block : Int) : LIRSWSR1 :=
  { s with HIR := mapDelete s.HIR block, LIR := mapInsert s.LIR block }

/-- lirswsr.makeHIR (first variant). -/
def makeHIR (s : LIRSWSR1) (block : Int) : LIRSWSR1 :=
  { s with LIR := mapDelete s.LIR block, HIR := mapInsert s.HIR block }

/-- lirswsr.isBlockCold (first variant): a block is cold while its access count
in stack S is below 2; false when the block is not in S. -/
def isBlockCold (s : LIRSWSR1) (block : Int) : Bool :=
  match OrderedMap.Get s.orderedStack block with
  | some i => decide (i.Access < 2)
  | none => false

/-- lirswsr.isBlockDirty (first variant); false when the block is not in S. -/
def isBlockDirty (s : LIRSWSR1) (block : Int) : Bool :=
  match OrderedMap.Get s.orderedStack block with
  | some i => i.DirtyPage
  | none => false

/-- lirswsr.stackPruning (first variant). -/
def stackPruning (s : LIRSWSR1) : LIRSWSR1 :=
  { s with orderedStack := s.orderedStack.dropWhile fun e => !(decide (e.1 ∈ s.LIR)) }

/-- lirswsr.condition1 (first variant): pop the oldest stack entry (the match
inlines OrderedMap.PopFirst); on removeLIR the dirty/cold checks run against
the stack from which the key was just popped, and the else branch reinserts
the popped block at the newest stack position with reset cold metadata. -/
def condition1 (s : LIRSWSR1) (removeLIR : Bool) : LIRSWSR1 × Option String :=
  match s.orderedStack with
  | [] => (s, some "orderedStack is empty")
  | (key, _) :: rest =>
    let s := { s with orderedStack := rest }
    let s := if removeLIR then
        if isBlockDirty s key || isBlockCold s key then
          let s := { s with hit := s.hit + 1 }
          let s := makeHIR s key
          { s with orderedList := OrderedMap.MoveLast (OrderedMap.Set s.orderedList key (QVal.num 1)) key }
        else
          { s with orderedStack := OrderedMap.MoveLast (OrderedMap.Set s.orderedStack key resetColdInfo) key }
      else s
    (stackPruning s, none)

/-- lirswsr.condition3 (first variant): identical to condition1 except that its
demotion branch does not increment hit. -/
def condition3 (s : LIRSWSR1) (removeLIR : Bool) : LIRSWSR1 × Option String :=
  match s.orderedStack with
  | [] => (s, some "orderedStack is empty")
  | (key, _) :: rest =>
    let s := { s with orderedStack := rest }
    let s := if removeLIR then
        if isBlockDirty s key || isBlockCold s key then
          let s := makeHIR s key
          { s with orderedList := OrderedMap.MoveLast (OrderedMap.Set s.orderedList key (QVal.num 1)) key }
        else
          { s with orderedStack := OrderedMap.MoveLast (OrderedMap.Set s.orderedStack key resetColdInfo) key }
      else s
    (stackPruning s, none)

/-- lirswsr.handleLIRBlock (first variant): after touching the stack it
overwrites the block's stack metadata with a fresh cold BlockInfo (the match
on the stack inlines OrderedMap.GetFirst). -/
def handleLIRBlock (s : LIRSWSR1) (block : Int) (op : String) : LIRSWSR1 × Option String :=
  let s := { s with hit := s.hit + 1 }
  match s.orderedStack with
  | [] => (s, some "orderedStack is empty")
  | (key, _) :: _ =>
    let s := if key = block then (condition1 s false).1 else s
    let s := addToStack s block op
    ({ s with orderedStack := OrderedMap.Set s.orderedStack block resetColdInfo }, none)

/-- lirswsr.handleHIRResidentBlock (first variant): note it does not increment
the hit counter. -/
def handleHIRResidentBlock (s : LIRSWSR1) (block : Int) (op : String) : LIRSWSR1 :=
  let s := if (OrderedMap.Get s.orderedStack block).isSome then
      let s := makeLIR s block
      let s := removeFromList s block
      (condition1 s true).1
    else
      { s with orderedList := OrderedMap.MoveLast s.orderedList block }
  addToStack s block op

/-- lirswsr.handleHIRNonResidentBlock (first variant). -/
def handleHIRNonResidentBlock (s : LIRSWSR1) (block : Int) (op : String) : LIRSWSR1 :=
  let s := { s with miss := s.miss + 1 }
  let s := addToList s block op
  let s := if (OrderedMap.Get s.orderedStack block).isSome then
      let s := makeLIR s block
      let s := removeFromList s block
      (condition3 s true).1
    else
      makeHIR s block
  addToStack s block op

/-- lirswsr.Get (first variant): the write counting at the top of Get is
commented out in the source; handler errors are discarded and Get always
returns nil. -/
def Get (s : LIRSWSR1) (t : Trace) : LIRSWSR1 × Option String :=
  let block := t.Addr
  let op := t.Op
  if s.LIR.length < s.LIRSize then
    let s := { s with miss := s.miss + 1 }
    let s := if block ∈ s.LIR then { s with miss := s.miss - 1, hit := s.hit + 1 } else s
    let s := addToStack s block op
    (makeLIR s block, none)
  else if block ∈ s.LIR then
    ((handleLIRBlock s block op).1, none)
  else if (OrderedMap.Get s.orderedList block).isSome then
    (handleHIRResidentBlock s block op, none)
  else
    (handleHIRNonResidentBlock s block op, none)

/-- Drive the first LIRS-WSR variant over a trace. -/
def run (s : LIRSWSR1) (tr : List Trace) : LIRSWSR1 :=
  tr.foldl (fun s t => (Get s t).1) s

end LIRSWSR1

/-! ## The LIRS-WSR engine, second variant (package lirswsr, second file section) -/

/-- State of the second LIRS-WSR variant. -/
structure LIRSWSR2 where
  cacheSize : Nat
  LIRSize : Nat
  HIRSize : Nat
  hit : Nat
  miss : Nat
  writeCount : Nat
  orderedStack : OrderedMap BlockInfo
  orderedList : OrderedMap QVal
  LIR : List Int
  HIR : List Int
deriving DecidableEq, Repr

namespace LIRSWSR2

/-- lirswsr.NewLIRSWSR (second variant): same capacity formulas. -/
def NewLIRSWSR (cacheSize HIRSize : Nat) : LIRSWSR2 :=
  { cacheSize := cacheSize
    LIRSize := (100 - HIRSize) * cacheSize / 100
    HIRSize := HIRSize * cacheSize / 100
    hit := 0
    miss := 0
    writeCount := 0
    orderedStack := []
    orderedList := []
    LIR := []
    HIR := [] }

/-- lirswsr.addToStack (second variant): a repeat touch only moves the entry to
the newest position (no access increment here; incrementAccess is called by
the handlers instead). -/
def addToStack (s : LIRSWSR2) (block : Int) (op : String) : LIRSWSR2 :=
  if (OrderedMap.Get s.orderedStack block).isSome then
    { s with orderedStack := OrderedMap.MoveLast s.orderedStack block }
  else if op = "W" then
    { s with writeCount := s.writeCount + 1
             orderedStack := OrderedMap.Set s.orderedStack block
               { Address := block, Operation := op, DirtyPage := true, ColdFlag := true, Access := 0 } }
  else
    { s with orderedStack := OrderedMap.Set s.orderedStack block
               { Address := block, Operation := op, DirtyPage := false, ColdFlag := true, Access := 0 } }

/-- lirswsr.addToList (second variant), same as the first variant. -/
def addToList (s : LIRSWSR2) (block : Int) (op : String) : LIRSWSR2 :=
  let s := if s.orderedList.length = s.HIRSize then
      { s with orderedList := (OrderedMap.PopFirst s.orderedList).2 }
    else s
  if op = "W" then
    { s with writeCount := s.writeCount + 1
             orderedList := OrderedMap.Set s.orderedList block (QVal.info
               { Address := block, Operation := op, DirtyPage := true, ColdFlag := true, Access := 0 }) }
  else
    { s with orderedList := OrderedMap.Set s.orderedList block (QVal.info
               { Address := block, Operation := op, DirtyPage := false, ColdFlag := true, Access := 0 }) }

/-- lirswsr.removeFromList (second variant). -/
def removeFromList (s : LIRSWSR2) (block : Int) : LIRSWSR2 :=
  { s with orderedList := OrderedMap.Delete s.orderedList block }

/-- lirswsr.makeLIR (second variant). -/
def makeLIR (s : LIRSWSR2) (block : Int) : LIRSWSR2 :=
  { s with HIR := mapDelete s.HIR block, LIR := mapInsert s.LIR block }

/-- lirswsr.makeHIR (second variant). -/
def makeHIR (s : LIRSWSR2) (block : Int) : LIRSWSR2 :=
  { s with LIR := mapDelete s.LIR block, HIR := mapInsert s.HIR block }

/-- lirswsr.isColdFlag (second variant): despite the name it tests the access
count, not the ColdFlag field; false when the block is not in S. -/
def isColdFlag (s : LIRSWSR2) (block : Int) : Bool :=
  match OrderedMap.Get s.orderedStack block with
  | some i => decide (i.Access < 2)
  | none => false

/-- lirswsr.isDirtyPage (second variant); unused by the engine but kept for
completeness. -/
def isDirtyPage (s : LIRSWSR2) (block : Int) : Bool :=
  match OrderedMap.Get s.orderedStack block with
  | some i => i.DirtyPage
  | none => false

/-- lirswsr.isBlockColdDirty (second variant): ColdFlag and DirtyPage both set;
false when the block is not in S. -/
def isBlockColdDirty (s : LIRSWSR2) (block : Int) : Bool :=
  match OrderedMap.Get s.orderedStack block with
  | some i => i.ColdFlag && i.DirtyPage
  | none => false

/-- lirswsr.incrementAccess (second variant): bump the access count stored in
stack S in place; no-op when the block is not in S. -/
def incrementAccess (s : LIRSWSR2) (block : Int) : LIRSWSR2 :=
  { s with orderedStack :=
      OrderedMap.Update s.orderedStack block fun i => { i with Access := i.Access + 1 } }

/-- lirswsr.stackPruning (second variant). -/
def stackPruning (s : LIRSWSR2) : LIRSWSR2 :=
  { s with orderedStack := s.orderedStack.dropWhile fun e => !(decide (e.1 ∈ s.LIR)) }

/-- lirswsr.condition1 (second variant): pop the oldest stack entry (the match
inlines OrderedMap.PopFirst); the metadata checks run against the stack from
which the key was just popped, and the retry branch counts an extra miss. -/
def condition1 (s : LIRSWSR2) (removeLIR : Bool) : LIRSWSR2 × Option String :=
  match s.orderedStack with
  | [] => (s, some "orderedStack is empty")
  | (key, _) :: rest =>
    let s := { s with orderedStack := rest }
    let s := if removeLIR then
        if isBlockColdDirty s key || isColdFlag s key then
          let s := makeHIR s key
          { s with orderedList := OrderedMap.MoveLast (OrderedMap.Set s.orderedList key (QVal.num 1)) key }
        else
          let s := { s with miss := s.miss + 1 }
          { s with orderedStack := OrderedMap.MoveLast (OrderedMap.Set s.orderedStack key resetColdInfo) key }
      else s
    (stackPruning s, none)

/-- lirswsr.condition3 (second variant): identical logic to condition1. -/
def condition3 (s : LIRSWSR2) (removeLIR : Bool) : LIRSWSR2 × Option String :=
  match s.orderedStack with
  | [] => (s, some "orderedStack is empty")
  | (key, _) :: rest =>
    let s := { s with orderedStack := rest }
    let s := if removeLIR then
        if isBlockColdDirty s key || isColdFlag s key then
          let s := makeHIR s key
          { s with orderedList := OrderedMap.MoveLast (OrderedMap.Set s.orderedList key (QVal.num 1)) key }
        else
          let s := { s with miss := s.miss + 1 }
          { s with orderedStack := OrderedMap.MoveLast (OrderedMap.Set s.orderedStack key resetColdInfo) key }
      else s
    (stackPruning s, none)

/-- lirswsr.handleLIRBlock (second variant): resets the block's stack metadata
to a fresh cold BlockInfo, then increments its access count (the match on the
stack inlines OrderedMap.GetFirst). -/
def handleLIRBlock (s : LIRSWSR2) (block : Int) (op : String) : LIRSWSR2 × Option String :=
  let s := { s with hit := s.hit + 1 }
  match s.orderedStack with
  | [] => (s, some "orderedStack is empty")
  | (key, _) :: _ =>
    let s := if key = block then (condition1 s false).1 else s
    let s := addToStack s block op
    let s := { s with orderedStack := OrderedMap.Set s.orderedStack block resetColdInfo }
    (incrementAccess s block, none)

/-- lirswsr.handleHIRResidentBlock (second variant): increments hit, and also
calls condition1 in the not-in-stack branch. -/
def handleHIRResidentBlock (s : LIRSWSR2) (block : Int) (op : String) : LIRSWSR2 :=
  let s := { s with hit := s.hit + 1 }
  let s := if (OrderedMap.Get s.orderedStack block).isSome then
      let s := makeLIR s block
      let s := removeFromList s block
      (condition1 s true).1
    else
      let s := { s with orderedList := OrderedMap.MoveLast s.orderedList block }
      (condition1 s true).1
  let s := addToStack s block op
  incrementAccess s block

/-- lirswsr.handleHIRNonResidentBlock (second variant): after adding the block
to the stack it overwrites its metadata with a fresh cold BlockInfo and then
increments the access count. -/
def handleHIRNonResidentBlock (s : LIRSWSR2) (block : Int) (op : String) : LIRSWSR2 :=
  let s := { s with miss := s.miss + 1 }
  let s := addToList s block op
  let s := if (OrderedMap.Get s.orderedStack block).isSome then
      let s := makeLIR s block
      let s := removeFromList s block
      (condition3 s true).1
    else
      makeHIR s block
  let s := addToStack s block op
  let s := { s with orderedStack := OrderedMap.Set s.orderedStack block resetColdInfo }
  incrementAccess s block

/-- lirswsr.Get (second variant): handler errors are discarded and Get always
returns nil. -/
def Get (s : LIRSWSR2) (t : Trace) : LIRSWSR2 × Option String :=
  let block := t.Addr
  let op := t.Op
  if s.LIR.length < s.LIRSize then
    let s := { s with miss := s.miss + 1 }
    let s := if block ∈ s.LIR then { s with miss := s.miss - 1, hit := s.hit + 1 } else s
    let s := addToStack s block op
    (makeLIR s block, none)
  else if block ∈ s.LIR then
    ((handleLIRBlock s block op).1, none)
  else if (OrderedMap.Get s.orderedList block).isSome then
    (handleHIRResidentBlock s block op, none)
  else
    (handleHIRNonResidentBlock s block op, none)

/-- Drive the second LIRS-WSR variant over a trace. -/
def run (s : LIRSWSR2) (tr : List Trace) : LIRSWSR2 :=
  tr.foldl (fun s t => (Get s t).1) s

end LIRSWSR2

/-! ## The LRU engine (package lru) -/

/-- lru.Node / lru.NodeLba: one cached block. The elem handle into the
recency list is represented by the node's position in lrulist. -/
structure NodeLba where
  lba : Int
  lastaccess : Nat
  op : String
deriving DecidableEq, Repr

/-- State of the LRU engine. The llrb order index tlba always holds exactly
the lbas of the nodes in lrulist, so it is modelled as the list of those keys;
lrulist is ordered front (newest) first. -/
structure LRU where
  maxlen : Nat
  available : Nat
  totalaccess : Nat
  hit : Nat
  miss : Nat
  pagefault : Nat
  write : Nat
  tlba : List Int
  lrulist : List NodeLba
deriving DecidableEq, Repr

namespace LRU

/-- lru.NewLRU. -/
def NewLRU (cacheSize : Nat) : LRU :=
  { maxlen := cacheSize
    available := cacheSize
    totalaccess := 0
    hit := 0
    miss := 0
    pagefault := 0
    write := 0
    tlba := []
    lrulist := [] }

/-- lru.put. On a hit the existing node keeps its stored value and is re-linked
at the front. On a miss with no free capacity the back (least recently used)
node is evicted; the none branch of that match is unreachable in the Go code
(it would dereference a nil list element) and leaves the state unchanged. -/
def put (s : LRU) (data : NodeLba) : LRU :=
  if data.lba ∈ s.tlba then
    let s := { s with hit := s.hit + 1 }
    let s := if data.op = "W" then { s with write := s.write + 1 } else s
    match s.lrulist.find? (fun n => n.lba == data.lba) with
    | some dd => { s with lrulist := dd :: s.lrulist.eraseP (fun n => n.lba == data.lba) }
    | none => s
  else
    let s := { s with miss := s.miss + 1, write := s.write + 1 }
    if 0 < s.available then
      { s with available := s.available - 1
               lrulist := data :: s.lrulist
               tlba := data.lba :: s.tlba }
    else
      let s := { s with pagefault := s.pagefault + 1 }
      match s.lrulist.getLast? with
      | none => s
      | some back =>
        let s := { s with tlba := s.tlba.erase back.lba, lrulist := s.lrulist.dropLast }
        { s with lrulist := data :: s.lrulist, tlba := data.lba :: s.tlba }

/-- lru.Get: stamp the access counter and insert the access as a node. -/
def Get (s : LRU) (t : Trace) : LRU × Option String :=
  let s := { s with totalaccess := s.totalaccess + 1 }
  (put s { lba := t.Addr, lastaccess := s.totalaccess, op := t.Op }, none)

/-- Drive the LRU engine over a trace. -/
def run (s : LRU) (tr : List Trace) : LRU :=
  tr.foldl (fun s t => (Get s t).1) s

end LRU

section OrderedMapLemmas

theorem omGet_Set_self {V : Type} (m : OrderedMap V) (k : Int) (v : V) :
    OrderedMap.Get (OrderedMap.Set m k v) k = some v := by
  induction m with
  | nil => simp [OrderedMap.Set, OrderedMap.Get]
  | cons e rest ih =>
    obtain ⟨a, w⟩ := e
    by_cases h : a = k <;> simp [OrderedMap.Set, OrderedMap.Get, h, ih]

theorem omSet_length_le {V : Type} (m : OrderedMap V) (k : Int) (v : V) :
    (OrderedMap.Set m k v).length ≤ m.length + 1 := by
  induction m with
  | nil => simp [OrderedMap.Set]
  | cons e rest ih =>
    obtain ⟨a, w⟩ := e
    by_cases h : a = k <;> (simp [OrderedMap.Set, h]; try omega)

theorem omDelete_length_le {V : Type} (m : OrderedMap V) (k : Int) :
    (OrderedMap.Delete m k).length ≤ m.length := by
  induction m with
  | nil => simp [OrderedMap.Delete]
  | cons e rest ih =>
    obtain ⟨a, w⟩ := e
    by_cases h : a = k <;> (simp [OrderedMap.Delete, h]; try omega)

theorem omDelete_length_of_get {V : Type} {m : OrderedMap V} {k : Int} {v : V}
    (h : OrderedMap.Get m k = some v) :
    (OrderedMap.Delete m k).length + 1 = m.length := by
  induction m with
  | nil => simp [OrderedMap.Get] at h
  | cons e rest ih =>
    obtain ⟨a, w⟩ := e
    by_cases ha : a = k
    · simp [OrderedMap.Delete, ha]
    · simp [OrderedMap.Get, ha] at h
      simp [OrderedMap.Delete, ha, ih h]

theorem omMoveLast_length {V : Type} (m : OrderedMap V) (k : Int) :
    (OrderedMap.MoveLast m k).length = m.length := by
  unfold OrderedMap.MoveLast
  cases h : OrderedMap.Get m k with
  | none => rfl
  | some v => simpa using omDelete_length_of_get h

theorem omPopFirst_length {V : Type} (m : OrderedMap V) :
    ((OrderedMap.PopFirst m).2).length = m.length - 1 := by
  cases m <;> simp [OrderedMap.PopFirst]

theorem omGet_Update_self {V : Type} (m : OrderedMap V) (k : Int) (f : V → V) :
    OrderedMap.Get (OrderedMap.Update m k f) k = (OrderedMap.Get m k).map f := by
  induction m with
  | nil => simp [OrderedMap.Update, OrderedMap.Get]
  | cons e rest ih =>
    obtain ⟨a, w⟩ := e
    by_cases h : a = k <;> simp [OrderedMap.Update, OrderedMap.Get, h, ih]

theorem head_dropWhile_neg {α : Type} (p : α → Bool) (l : List α) :
    ((l.dropWhile p).head?.all fun a => !(p a)) = true := by
  induction l with
  | nil => simp
  | cons a l ih =>
    by_cases h : p a <;> simp [List.dropWhile_cons, h, ih]

theorem omMem_keys_Set {V : Type} {m : OrderedMap V} {k a : Int} {v : V}
    (h : a ∈ (OrderedMap.Set m k v).map Prod.fst) :
    a ∈ m.map Prod.fst ∨ a = k := by
  induction m with
  | nil =>
    simp [OrderedMap.Set] at h
    exact Or.inr h
  | cons e rest ih =>
    obtain ⟨b, w⟩ := e
    by_cases hb : b = k
    · simp [OrderedMap.Set, hb] at h
      rcases h with h | h
      · exact Or.inr h
      · exact Or.inl (by simp [h])
    · simp only [OrderedMap.Set, if_neg hb, List.map_cons, List.mem_cons] at h
      rcases h with h | h
      · exact Or.inl (by simp [h])
      · rcases ih h with h2 | h2
        · exact Or.inl (by simp [h2])
        · exact Or.inr h2

theorem omSet_nodup {V : Type} {m : OrderedMap V} (k : Int) (v : V)
    (h : (m.map Prod.fst).Nodup) : ((OrderedMap.Set m k v).map Prod.fst).Nodup := by
  induction m with
  | nil => simp [OrderedMap.Set]
  | cons e rest ih =>
    obtain ⟨b, w⟩ := e
    simp only [List.map_cons, List.nodup_cons] at h
    by_cases hb : b = k
    · simp only [OrderedMap.Set, if_pos hb, List.map_cons, List.nodup_cons]
      exact h
    · simp only [OrderedMap.Set, if_neg hb, List.map_cons, List.nodup_cons]
      refine ⟨?_, ih h.2⟩
      intro hmem
      rcases omMem_keys_Set hmem with h2 | h2
      · exact h.1 h2
      · exact hb h2

theorem omMem_keys_Delete {V : Type} {m : OrderedMap V} {k a : Int}
    (h : a ∈ (OrderedMap.Delete m k).map Prod.fst) : a ∈ m.map Prod.fst := by
  induction m with
  | nil => simp [OrderedMap.Delete] at h
  | cons e rest ih =>
    obtain ⟨b, w⟩ := e
    by_cases hb : b = k
    · simp only [OrderedMap.Delete, if_pos hb] at h
      simp [h]
    · simp only [OrderedMap.Delete, if_neg hb, List.map_cons, List.mem_cons] at h
      rcases h with h | h
      · simp [h]
      · simp [ih h]

theorem omDelete_nodup {V : Type} {m : OrderedMap V} (k : Int)
    (h : (m.map Prod.fst).Nodup) : ((OrderedMap.Delete m k).map Prod.fst).Nodup := by
  induction m with
  | nil => simp [OrderedMap.Delete]
  | cons e rest ih =>
    obtain ⟨b, w⟩ := e
    simp only [List.map_cons, List.nodup_cons] at h
    by_cases hb : b = k
    · simp only [OrderedMap.Delete, if_pos hb]
      exact h.2
    · simp only [OrderedMap.Delete, if_neg hb, List.map_cons, List.nodup_cons]
      exact ⟨fun hmem => h.1 (omMem_keys_Delete hmem), ih h.2⟩

theorem omNot_mem_keys_Delete {V : Type} {m : OrderedMap V} (k : Int)
    (h : (m.map Prod.fst).Nodup) : k ∉ (OrderedMap.Delete m k).map Prod.fst := by
  induction m with
  | nil => simp [OrderedMap.Delete]
  | cons e rest ih =>
    obtain ⟨b, w⟩ := e
    simp only [List.map_cons, List.nodup_cons] at h
    by_cases hb : b = k
    · simp only [OrderedMap.Delete, if_pos hb]
      exact hb ▸ h.1
    · simp only [OrderedMap.Delete, if_neg hb, List.map_cons, List.mem_cons]
      rintro (h2 | h2)
      · exact hb h2.symm
      · exact ih h.2 h2

theorem omMoveLast_nodup {V : Type} {m : OrderedMap V} (k : Int)
    (h : (m.map Prod.fst).Nodup) : ((OrderedMap.MoveLast m k).map Prod.fst).Nodup := by
  unfold OrderedMap.MoveLast
  cases hg : OrderedMap.Get m k with
  | none => exact h
  | some v =>
    rw [List.map_append]
    rw [List.nodup_append]
    refine ⟨omDelete_nodup k h, by simp, ?_⟩
    intro a ha hb
    simp at hb
    exact omNot_mem_keys_Delete k h (hb ▸ ha)

theorem omUpdate_keys {V : Type} (m : OrderedMap V) (k : Int) (f : V → V) :
    (OrderedMap.Update m k f).map Prod.fst = m.map Prod.fst := by
  induction m with
  | nil => rfl
  | cons e rest ih =>
    obtain ⟨b, w⟩ := e
    by_cases hb : b = k <;> simp [OrderedMap.Update, hb, ih]

theorem omGet_eq_none_of_not_mem {V : Type} {m : OrderedMap V} {k : Int}
    (h : k ∉ m.map Prod.fst) : OrderedMap.Get m k = none := by
  induction m with
  | nil => rfl
  | cons e rest ih =>
    obtain ⟨b, w⟩ := e
    simp only [List.map_cons, List.mem_cons] at h
    push_neg at h
    have hb : b ≠ k := Ne.symm h.1
    simp only [OrderedMap.Get, if_neg hb]
    exact ih h.2

theorem omDropWhile_nodup {V : Type} (m : OrderedMap V) (p : Int × V → Bool)
    (h : (m.map Prod.fst).Nodup) : ((m.dropWhile p).map Prod.fst).Nodup :=
  ((List.dropWhile_sublist p).map Prod.fst).nodup h

end OrderedMapLemmas

section LIRSLemmas

@[simp] theorem lirs_addToStack_hit (s : LIRS) (b : Int) :
    (LIRS.addToStack s b).hit = s.hit := by
  unfold LIRS.addToStack
  split <;> rfl

@[simp] theorem lirs_addToStack_miss (s : LIRS) (b : Int) :
    (LIRS.addToStack s b).miss = s.miss := by
  unfold LIRS.addToStack
  split <;> rfl

@[simp] theorem lirs_addToStack_writeCount (s : LIRS) (b : Int) :
    (LIRS.addToStack s b).writeCount = s.writeCount := by
  unfold LIRS.addToStack
  split <;> rfl

@[simp] theorem lirs_addToStack_HIRSize (s : LIRS) (b : Int) :
    (LIRS.addToStack s b).HIRSize = s.HIRSize := by
  unfold LIRS.addToStack
  split <;> rfl

@[simp] theorem lirs_addToStack_LIRSize (s : LIRS) (b : Int) :
    (LIRS.addToStack s b).LIRSize = s.LIRSize := by
  unfold LIRS.addToStack
  split <;> rfl

@[simp] theorem lirs_addToList_hit (s : LIRS) (b : Int) :
    (LIRS.addToList s b).hit = s.hit := by
  unfold LIRS.addToList
  dsimp only
  split <;> rfl

@[simp] theorem lirs_addToList_miss (s : LIRS) (b : Int) :
    (LIRS.addToList s b).miss = s.miss := by
  unfold LIRS.addToList
  dsimp only
  split <;> rfl

@[simp] theorem lirs_addToList_writeCount (s : LIRS) (b : Int) :
    (LIRS.addToList s b).writeCount = s.writeCount := by
  unfold LIRS.addToList
  dsimp only
  split <;> rfl

@[simp] theorem lirs_addToList_HIRSize (s : LIRS) (b : Int) :
    (LIRS.addToList s b).HIRSize = s.HIRSize := by
  unfold LIRS.addToList
  dsimp only
  split <;> rfl

@[simp] theorem lirs_addToList_LIRSize (s : LIRS) (b : Int) :
    (LIRS.addToList s b).LIRSize = s.LIRSize := by
  unfold LIRS.addToList
  dsimp only
  split <;> rfl

@[simp] theorem lirs_removeFromList_hit (s : LIRS) (b : Int) :
    (LIRS.removeFromList s b).hit = s.hit := by rfl

@[simp] theorem lirs_removeFromList_miss (s : LIRS) (b : Int) :
    (LIRS.removeFromList s b).miss = s.miss := by rfl

@[simp] theorem lirs_removeFromList_writeCount (s : LIRS) (b : Int) :
    (LIRS.removeFromList s b).writeCount = s.writeCount := by rfl

@[simp] theorem lirs_removeFromList_HIRSize (s : LIRS) (b : Int) :
    (LIRS.removeFromList s b).HIRSize = s.HIRSize := by rfl

@[simp] theorem lirs_removeFromList_LIRSize (s : LIRS) (b : Int) :
    (LIRS.removeFromList s b).LIRSize = s.LIRSize := by rfl

@[simp] theorem lirs_makeLIR_hit (s : LIRS) (b : Int) :
    (LIRS.makeLIR s b).hit = s.hit := by rfl

@[simp] theorem lirs_makeLIR_miss (s : LIRS) (b : Int) :
    (LIRS.makeLIR s b).miss = s.miss := by rfl

@[simp] theorem lirs_makeLIR_writeCount (s : LIRS) (b : Int) :
    (LIRS.makeLIR s b).writeCount = s.writeCount := by rfl

@[simp] theorem lirs_makeLIR_HIRSize (s : LIRS) (b : Int) :
    (LIRS.makeLIR s b).HIRSize = s.HIRSize := by rfl

@[simp] theorem lirs_makeLIR_LIRSize (s : LIRS) (b : Int) :
    (LIRS.makeLIR s b).LIRSize = s.LIRSize := by rfl

@[simp] theorem lirs_makeHIR_hit (s : LIRS) (b : Int) :
    (LIRS.makeHIR s b).hit = s.hit := by rfl

@[simp] theorem lirs_makeHIR_miss (s : LIRS) (b : Int) :
    (LIRS.makeHIR s b).miss = s.miss := by rfl

@[simp] theorem lirs_makeHIR_writeCount (s : LIRS) (b : Int) :
    (LIRS.makeHIR s b).writeCount = s.writeCount := by rfl

@[simp] theorem lirs_makeHIR_HIRSize (s : LIRS) (b : Int) :
    (LIRS.makeHIR s b).HIRSize = s.HIRSize := by rfl

@[simp] theorem lirs_makeHIR_LIRSize (s : LIRS) (b : Int) :
    (LIRS.makeHIR s b).LIRSize = s.LIRSize := by rfl

@[simp] theorem lirs_stackPruning_hit (s : LIRS) :
    (LIRS.stackPruning s).hit = s.hit := by rfl

@[simp] theorem lirs_stackPruning_miss (s : LIRS) :
    (LIRS.stackPruning s).miss = s.miss := by rfl

@[simp] theorem lirs_stackPruning_writeCount (s : LIRS) :
    (LIRS.stackPruning s).writeCount = s.writeCount := by rfl

@[simp] theorem lirs_stackPruning_HIRSize (s : LIRS) :
    (LIRS.stackPruning s).HIRSize = s.HIRSize := by rfl

@[simp] theorem lirs_stackPruning_LIRSize (s : LIRS) :
    (LIRS.stackPruning s).LIRSize = s.LIRSize := by rfl

@[simp] theorem lirs_addToStack_orderedList (s : LIRS) (b : Int) :
    (LIRS.addToStack s b).orderedList = s.orderedList := by
  unfold LIRS.addToStack
  split <;> rfl

@[simp] theorem lirs_stackPruning_orderedList (s : LIRS) :
    (LIRS.stackPruning s).orderedList = s.orderedList := by rfl

@[simp] theorem lirs_makeHIR_orderedList (s : LIRS) (b : Int) :
    (LIRS.makeHIR s b).orderedList = s.orderedList := by rfl

@[simp] theorem lirs_makeLIR_orderedList (s : LIRS) (b : Int) :
    (LIRS.makeLIR s b).orderedList = OrderedMap.Delete s.orderedList b := by rfl

@[simp] theorem lirs_removeFromList_orderedList (s : LIRS) (b : Int) :
    (LIRS.removeFromList s b).orderedList = OrderedMap.Delete s.orderedList b := by rfl

@[simp] theorem lirs_condition1_hit (s : LIRS) (r : Bool) :
    ((LIRS.condition1 s r).1).hit = s.hit := by
  unfold LIRS.condition1
  dsimp only
  split
  · rfl
  · split <;> rfl

@[simp] theorem lirs_condition1_miss (s : LIRS) (r : Bool) :
    ((LIRS.condition1 s r).1).miss = s.miss := by
  unfold LIRS.condition1
  dsimp only
  split
  · rfl
  · split <;> rfl

@[simp] theorem lirs_condition1_writeCount (s : LIRS) (r : Bool) :
    ((LIRS.condition1 s r).1).writeCount = s.writeCount := by
  unfold LIRS.condition1
  dsimp only
  split
  · rfl
  · split <;> rfl

@[simp] theorem lirs_condition1_HIRSize (s : LIRS) (r : Bool) :
    ((LIRS.condition1 s r).1).HIRSize = s.HIRSize := by
  unfold LIRS.condition1
  dsimp only
  split
  · rfl
  · split <;> rfl

@[simp] theorem lirs_condition1_LIRSize (s : LIRS) (r : Bool) :
    ((LIRS.condition1 s r).1).LIRSize = s.LIRSize := by
  unfold LIRS.condition1
  dsimp only
  split
  · rfl
  · split <;> rfl

theorem lirs_condition1_false_orderedList (s : LIRS) :
    ((LIRS.condition1 s false).1).orderedList = s.orderedList := by
  unfold LIRS.condition1
  dsimp only
  split <;> rfl

theorem lirs_condition1_orderedList_length (s : LIRS) (r : Bool) :
    ((LIRS.condition1 s r).1).orderedList.length ≤ s.orderedList.length + 1 := by
  unfold LIRS.condition1
  dsimp only
  split
  · simp
  · split
    · simp only [lirs_stackPruning_orderedList, lirs_makeHIR_orderedList]
      calc (OrderedMap.MoveLast (OrderedMap.Set s.orderedList _ 1) _).length
          = (OrderedMap.Set s.orderedList _ 1).length := omMoveLast_length _ _
        _ ≤ s.orderedList.length + 1 := omSet_length_le _ _ _
    · simp only [lirs_stackPruning_orderedList]
      omega

theorem lirs_addToList_orderedList_length (s : LIRS) (b : Int)
    (hle : s.orderedList.length ≤ s.HIRSize) (hpos : 1 ≤ s.HIRSize) :
    (LIRS.addToList s b).orderedList.length ≤ s.HIRSize := by
  unfold LIRS.addToList
  dsimp only
  split
  · dsimp only
    have h1 := omSet_length_le ((OrderedMap.PopFirst s.orderedList).2) b 1
    have h2 := omPopFirst_length s.orderedList
    omega
  · have h1 := omSet_length_le s.orderedList b 1
    omega

theorem lirs_addToList_get_self (s : LIRS) (b : Int) :
    OrderedMap.Get (LIRS.addToList s b).orderedList b = some 1 := by
  unfold LIRS.addToList
  dsimp only
  split <;> exact omGet_Set_self _ _ _

@[simp] theorem lirs_handleLIRBlock_hit (s : LIRS) (b : Int) :
    ((LIRS.handleLIRBlock s b).1).hit = s.hit + 1 := by
  unfold LIRS.handleLIRBlock
  dsimp only
  split
  · rfl
  · split <;> simp

@[simp] theorem lirs_handleLIRBlock_miss (s : LIRS) (b : Int) :
    ((LIRS.handleLIRBlock s b).1).miss = s.miss := by
  unfold LIRS.handleLIRBlock
  dsimp only
  split
  · rfl
  · split <;> simp

@[simp] theorem lirs_handleLIRBlock_writeCount (s : LIRS) (b : Int) :
    ((LIRS.handleLIRBlock s b).1).writeCount = s.writeCount := by
  unfold LIRS.handleLIRBlock
  dsimp only
  split
  · rfl
  · split <;> simp

@[simp] theorem lirs_handleLIRBlock_HIRSize (s : LIRS) (b : Int) :
    ((LIRS.handleLIRBlock s b).1).HIRSize = s.HIRSize := by
  unfold LIRS.handleLIRBlock
  dsimp only
  split
  · rfl
  · split <;> simp

@[simp] theorem lirs_handleLIRBlock_LIRSize (s : LIRS) (b : Int) :
    ((LIRS.handleLIRBlock s b).1).LIRSize = s.LIRSize := by
  unfold LIRS.handleLIRBlock
  dsimp only
  split
  · rfl
  · split <;> simp

@[simp] theorem lirs_handleLIRBlock_orderedList (s : LIRS) (b : Int) :
    ((LIRS.handleLIRBlock s b).1).orderedList = s.orderedList := by
  unfold LIRS.handleLIRBlock
  dsimp only
  split
  · rfl
  · split
    · simp [lirs_condition1_false_orderedList]
    · simp

@[simp] theorem lirs_handleHIRResidentBlock_hit (s : LIRS) (b : Int) :
    (LIRS.handleHIRResidentBlock s b).hit = s.hit + 1 := by
  unfold LIRS.handleHIRResidentBlock
  dsimp only
  split <;> simp

@[simp] theorem lirs_handleHIRResidentBlock_miss (s : LIRS) (b : Int) :
    (LIRS.handleHIRResidentBlock s b).miss = s.miss := by
  unfold LIRS.handleHIRResidentBlock
  dsimp only
  split <;> simp

@[simp] theorem lirs_handleHIRResidentBlock_writeCount (s : LIRS) (b : Int) :
    (LIRS.handleHIRResidentBlock s b).writeCount = s.writeCount := by
  unfold LIRS.handleHIRResidentBlock
  dsimp only
  split <;> simp

@[simp] theorem lirs_handleHIRResidentBlock_HIRSize (s : LIRS) (b : Int) :
    (LIRS.handleHIRResidentBlock s b).HIRSize = s.HIRSize := by
  unfold LIRS.handleHIRResidentBlock
  dsimp only
  split <;> simp

@[simp] theorem lirs_handleHIRResidentBlock_LIRSize (s : LIRS) (b : Int) :
    (LIRS.handleHIRResidentBlock s b).LIRSize = s.LIRSize := by
  unfold LIRS.handleHIRResidentBlock
  dsimp only
  split <;> simp

@[simp] theorem lirs_handleHIRNonResidentBlock_hit (s : LIRS) (b : Int) :
    (LIRS.handleHIRNonResidentBlock s b).hit = s.hit := by
  unfold LIRS.handleHIRNonResidentBlock
  dsimp only
  split <;> simp

@[simp] theorem lirs_handleHIRNonResidentBlock_miss (s : LIRS) (b : Int) :
    (LIRS.handleHIRNonResidentBlock s b).miss = s.miss + 1 := by
  unfold LIRS.handleHIRNonResidentBlock
  dsimp only
  split <;> simp

@[simp] theorem lirs_handleHIRNonResidentBlock_writeCount (s : LIRS) (b : Int) :
    (LIRS.handleHIRNonResidentBlock s b).writeCount = s.writeCount := by
  unfold LIRS.handleHIRNonResidentBlock
  dsimp only
  split <;> simp

@[simp] theorem lirs_handleHIRNonResidentBlock_HIRSize (s : LIRS) (b : Int) :
    (LIRS.handleHIRNonResidentBlock s b).HIRSize = s.HIRSize := by
  unfold LIRS.handleHIRNonResidentBlock
  dsimp only
  split <;> simp

@[simp] theorem lirs_handleHIRNonResidentBlock_LIRSize (s : LIRS) (b : Int) :
    (LIRS.handleHIRNonResidentBlock s b).LIRSize = s.LIRSize := by
  unfold LIRS.handleHIRNonResidentBlock
  dsimp only
  split <;> simp

end LIRSLemmas

theorem lirs_Get_HIRSize (s : LIRS) (t : Trace) :
    ((LIRS.Get s t).1).HIRSize = s.HIRSize := by
  by_cases hop : t.Op = "W" <;>
  · simp only [LIRS.Get, hop, ite_true, ite_false]
    split
    · split <;> simp
    · split
      · simp
      · split <;> simp

theorem lirs_Get_counters (s : LIRS) (t : Trace) :
    ((LIRS.Get s t).1).hit + ((LIRS.Get s t).1).miss = s.hit + s.miss + 1 ∧
    s.hit ≤ ((LIRS.Get s t).1).hit ∧ s.miss ≤ ((LIRS.Get s t).1).miss := by
  by_cases hop : t.Op = "W" <;>
  · simp only [LIRS.Get, hop, ite_true, ite_false]
    split
    · split <;> (refine ⟨?_, ?_, ?_⟩ <;> (simp; try omega))
    · split
      · refine ⟨?_, ?_, ?_⟩ <;> (simp; try omega)
      · split <;> (refine ⟨?_, ?_, ?_⟩ <;> (simp; try omega))

theorem lirs_Get_writeCount (s : LIRS) (t : Trace) :
    ((LIRS.Get s t).1).writeCount =
      if t.Op = "W" then s.writeCount + 1 else s.writeCount := by
  by_cases hop : t.Op = "W" <;>
  · simp only [LIRS.Get, hop, ite_true, ite_false]
    split
    · split <;> simp
    · split
      · simp
      · split <;> simp

theorem lirs_addToList_delete_length (s : LIRS) (b : Int)
    (hle : s.orderedList.length ≤ s.HIRSize) (hpos : 1 ≤ s.HIRSize) :
    (OrderedMap.Delete (LIRS.addToList s b).orderedList b).length + 1 ≤ s.HIRSize := by
  have h1 := lirs_addToList_orderedList_length s b hle hpos
  have h2 := omDelete_length_of_get (lirs_addToList_get_self s b)
  omega

theorem lirs_Get_orderedList_length (s : LIRS) (t : Trace)
    (hle : s.orderedList.length ≤ s.HIRSize) (hpos : 1 ≤ s.HIRSize) :
    ((LIRS.Get s t).1).orderedList.length ≤ s.HIRSize := by
  by_cases hop : t.Op = "W" <;>
  · simp only [LIRS.Get, hop, ite_true, ite_false]
    split
    · -- cold-start phase: addToStack and makeLIR only delete from the list
      split <;>
      · simp only [lirs_makeLIR_orderedList, lirs_addToStack_orderedList]
        exact le_trans (omDelete_length_le _ _) hle
    · split
      · -- LIR hit: the list is untouched
        simpa using hle
      · split
        · -- HIR resident hit
          rename_i hres
          simp only [Option.isSome_iff_exists] at hres
          obtain ⟨v, hv⟩ := hres
          simp only [LIRS.handleHIRResidentBlock]
          split
          · simp only [lirs_addToStack_orderedList]
            apply le_trans (lirs_condition1_orderedList_length _ true)
            simp only [lirs_removeFromList_orderedList, lirs_makeLIR_orderedList]
            have h2 := omDelete_length_le (OrderedMap.Delete s.orderedList t.Addr) t.Addr
            have h3 := omDelete_length_of_get hv
            omega
          · simp only [lirs_addToStack_orderedList, omMoveLast_length]
            exact hle
        · -- HIR non-resident miss
          simp only [LIRS.handleHIRNonResidentBlock]
          split
          · simp only [lirs_addToStack_orderedList]
            apply le_trans (lirs_condition1_orderedList_length _ true)
            simp only [lirs_removeFromList_orderedList, lirs_makeLIR_orderedList]
            apply le_trans (Nat.add_le_add_right (omDelete_length_le _ _) 1)
            apply lirs_addToList_delete_length
            · exact hle
            · exact hpos
          · simp only [lirs_addToStack_orderedList, lirs_makeHIR_orderedList]
            apply lirs_addToList_orderedList_length
            · exact hle
            · exact hpos

theorem lirs_run_nil (s : LIRS) : LIRS.run s [] = s := rfl

theorem lirs_run_cons (s : LIRS) (t : Trace) (tr : List Trace) :
    LIRS.run s (t :: tr) = LIRS.run ((LIRS.Get s t).1) tr := rfl

theorem lirs_run_HIRSize (tr : List Trace) : ∀ s : LIRS, (LIRS.run s tr).HIRSize = s.HIRSize := by
  induction tr with
  | nil => intro s; rfl
  | cons t tr ih =>
    intro s
    rw [lirs_run_cons, ih, lirs_Get_HIRSize]

theorem lirs_run_counters (tr : List Trace) :
    ∀ s : LIRS, (LIRS.run s tr).hit + (LIRS.run s tr).miss = s.hit + s.miss + tr.length := by
  induction tr with
  | nil => intro s; simp [lirs_run_nil]
  | cons t tr ih =>
    intro s
    rw [lirs_run_cons]
    have h1 := ih ((LIRS.Get s t).1)
    have h2 := (lirs_Get_counters s t).1
    simp only [List.length_cons]
    omega

theorem lirs_run_orderedList_length (tr : List Trace) :
    ∀ s : LIRS, s.orderedList.length ≤ s.HIRSize → 1 ≤ s.HIRSize →
      (LIRS.run s tr).orderedList.length ≤ s.HIRSize := by
  induction tr with
  | nil => intro s h1 h2; simpa [lirs_run_nil] using h1
  | cons t tr ih =>
    intro s h1 h2
    rw [lirs_run_cons]
    have hstep := lirs_Get_orderedList_length s t h1 h2
    have hsz := lirs_Get_HIRSize s t
    have := ih ((LIRS.Get s t).1) (by rw [hsz]; exact hstep) (by rw [hsz]; exact h2)
    rw [hsz] at this
    exact this

theorem lru_put_invariant (s : LRU) (d : NodeLba)
    (hinv : s.lrulist.length + s.available = s.maxlen) :
    (LRU.put s d).lrulist.length + (LRU.put s d).available = s.maxlen ∧
    (LRU.put s d).maxlen = s.maxlen := by
  unfold LRU.put
  dsimp only
  split
  · -- hit branch
    split
    · rename_i dd heq
      have hmem := List.mem_of_find?_eq_some heq
      have hp := List.find?_some heq
      have hlen := List.length_eraseP_add_one (p := fun n : NodeLba => n.lba == d.lba) hmem hp
      revert heq hlen hmem hp
      split <;>
      · intro hmem hp heq hlen
        refine ⟨?_, rfl⟩
        simp only [List.length_cons]
        try dsimp only at hlen ⊢
        omega
    · rename_i heq
      revert heq
      split <;>
      · intro heq
        exact ⟨hinv, rfl⟩
  · -- miss branch
    split
    · -- free capacity
      rename_i havail
      constructor
      · simp only [List.length_cons]
        omega
      · rfl
    · -- eviction
      split
      · exact ⟨hinv, rfl⟩
      · rename_i back heq
        have hne : s.lrulist ≠ [] := by
          intro h
          rw [h] at heq
          simp at heq
        have hpos := List.length_pos.mpr hne
        constructor
        · simp only [List.length_cons, List.length_dropLast]
          omega
        · rfl

theorem lru_Get_invariant (s : LRU) (t : Trace)
    (hinv : s.lrulist.length + s.available = s.maxlen) :
    ((LRU.Get s t).1).lrulist.length + ((LRU.Get s t).1).available = s.maxlen ∧
    ((LRU.Get s t).1).maxlen = s.maxlen := by
  unfold LRU.Get
  dsimp only
  exact lru_put_invariant _ _ hinv

theorem lru_run_invariant (tr : List Trace) :
    ∀ s : LRU, s.lrulist.length + s.available = s.maxlen →
      (LRU.run s tr).lrulist.length + (LRU.run s tr).available = s.maxlen ∧
      (LRU.run s tr).maxlen = s.maxlen := by
  induction tr with
  | nil => intro s h; exact ⟨h, rfl⟩
  | cons t tr ih =>
    intro s h
    obtain ⟨h1, h2⟩ := lru_Get_invariant s t h
    have := ih ((LRU.Get s t).1) (by rw [h2]; exact h1)
    rw [h2] at this
    exact this

theorem wsr1_makeHIR_writeCount (s : LIRSWSR1) (b : Int) :
    (LIRSWSR1.makeHIR s b).writeCount = s.writeCount := rfl

theorem wsr1_makeHIR_orderedStack (s : LIRSWSR1) (b : Int) :
    (LIRSWSR1.makeHIR s b).orderedStack = s.orderedStack := rfl

theorem wsr1_makeHIR_orderedList (s : LIRSWSR1) (b : Int) :
    (LIRSWSR1.makeHIR s b).orderedList = s.orderedList := rfl

theorem wsr1_addToList_orderedStack (s : LIRSWSR1) (b : Int) (op : String) :
    (LIRSWSR1.addToList s b op).orderedStack = s.orderedStack := by
  unfold LIRSWSR1.addToList
  dsimp only
  split <;> split <;> rfl

theorem wsr1_addToList_writeCount_W (s : LIRSWSR1) (b : Int) :
    (LIRSWSR1.addToList s b "W").writeCount = s.writeCount + 1 := by
  unfold LIRSWSR1.addToList
  dsimp only
  rw [if_pos rfl]
  split <;> rfl

theorem wsr1_addToList_get_W (s : LIRSWSR1) (b : Int) :
    OrderedMap.Get (LIRSWSR1.addToList s b "W").orderedList b
      = some (QVal.info
          { Address := b, Operation := "W", DirtyPage := true, ColdFlag := true, Access := 0 }) := by
  unfold LIRSWSR1.addToList
  dsimp only
  rw [if_pos rfl]
  dsimp only
  split <;> exact omGet_Set_self _ _ _

theorem wsr1_addToStack_absent_W (s : LIRSWSR1) (b : Int)
    (h : OrderedMap.Get s.orderedStack b = none) :
    (LIRSWSR1.addToStack s b "W").writeCount = s.writeCount + 1 ∧
    OrderedMap.Get (LIRSWSR1.addToStack s b "W").orderedStack b
      = some { Address := b, Operation := "W", DirtyPage := true, ColdFlag := true, Access := 0 } ∧
    (LIRSWSR1.addToStack s b "W").orderedList = s.orderedList := by
  unfold LIRSWSR1.addToStack
  rw [h]
  simp only [Option.isSome_none, Bool.false_eq_true, if_false, if_true]
  exact ⟨trivial, omGet_Set_self _ _ _, trivial⟩

@[simp] theorem wsr1_addToStack_hit (s : LIRSWSR1) (b : Int) (op : String) :
    (LIRSWSR1.addToStack s b op).hit = s.hit := by
  unfold LIRSWSR1.addToStack
  split
  · rfl
  · split <;> rfl

@[simp] theorem wsr1_addToStack_miss (s : LIRSWSR1) (b : Int) (op : String) :
    (LIRSWSR1.addToStack s b op).miss = s.miss := by
  unfold LIRSWSR1.addToStack
  split
  · rfl
  · split <;> rfl

@[simp] theorem wsr1_addToStack_HIRSize (s : LIRSWSR1) (b : Int) (op : String) :
    (LIRSWSR1.addToStack s b op).HIRSize = s.HIRSize := by
  unfold LIRSWSR1.addToStack
  split
  · rfl
  · split <;> rfl

@[simp] theorem wsr1_addToStack_orderedList (s : LIRSWSR1) (b : Int) (op : String) :
    (LIRSWSR1.addToStack s b op).orderedList = s.orderedList := by
  unfold LIRSWSR1.addToStack
  split
  · rfl
  · split <;> rfl

@[simp] theorem wsr1_addToList_hit (s : LIRSWSR1) (b : Int) (op : String) :
    (LIRSWSR1.addToList s b op).hit = s.hit := by
  unfold LIRSWSR1.addToList
  dsimp only
  split <;> split <;> rfl

@[simp] theorem wsr1_addToList_miss (s : LIRSWSR1) (b : Int) (op : String) :
    (LIRSWSR1.addToList s b op).miss = s.miss := by
  unfold LIRSWSR1.addToList
  dsimp only
  split <;> split <;> rfl

@[simp] theorem wsr1_addToList_HIRSize (s : LIRSWSR1) (b : Int) (op : String) :
    (LIRSWSR1.addToList s b op).HIRSize = s.HIRSize := by
  unfold LIRSWSR1.addToList
  dsimp only
  split <;> split <;> rfl

@[simp] theorem wsr1_removeFromList_hit (s : LIRSWSR1) (b : Int) :
    (LIRSWSR1.removeFromList s b).hit = s.hit := rfl

@[simp] theorem wsr1_removeFromList_miss (s : LIRSWSR1) (b : Int) :
    (LIRSWSR1.removeFromList s b).miss = s.miss := rfl

@[simp] theorem wsr1_removeFromList_HIRSize (s : LIRSWSR1) (b : Int) :
    (LIRSWSR1.removeFromList s b).HIRSize = s.HIRSize := rfl

@[simp] theorem wsr1_removeFromList_orderedStack (s : LIRSWSR1) (b : Int) :
    (LIRSWSR1.removeFromList s b).orderedStack = s.orderedStack := rfl

@[simp] theorem wsr1_removeFromList_orderedList (s : LIRSWSR1) (b : Int) :
    (LIRSWSR1.removeFromList s b).orderedList = OrderedMap.Delete s.orderedList b := rfl

@[simp] theorem wsr1_makeLIR_hit (s : LIRSWSR1) (b : Int) :
    (LIRSWSR1.makeLIR s b).hit = s.hit := rfl

@[simp] theorem wsr1_makeLIR_miss (s : LIRSWSR1) (b : Int) :
    (LIRSWSR1.makeLIR s b).miss = s.miss := rfl

@[simp] theorem wsr1_makeLIR_HIRSize (s : LIRSWSR1) (b : Int) :
    (LIRSWSR1.makeLIR s b).HIRSize = s.HIRSize := rfl

@[simp] theorem wsr1_makeLIR_orderedStack (s : LIRSWSR1) (b : Int) :
    (LIRSWSR1.makeLIR s b).orderedStack = s.orderedStack := rfl

@[simp] theorem wsr1_makeLIR_orderedList (s : LIRSWSR1) (b : Int) :
    (LIRSWSR1.makeLIR s b).orderedList = s.orderedList := rfl

@[simp] theorem wsr1_makeHIR_hit (s : LIRSWSR1) (b : Int) :
    (LIRSWSR1.makeHIR s b).hit = s.hit := rfl

@[simp] theorem wsr1_makeHIR_miss (s : LIRSWSR1) (b : Int) :
    (LIRSWSR1.makeHIR s b).miss = s.miss := rfl

@[simp] theorem wsr1_makeHIR_HIRSize (s : LIRSWSR1) (b : Int) :
    (LIRSWSR1.makeHIR s b).HIRSize = s.HIRSize := rfl

@[simp] theorem wsr1_stackPruning_hit (s : LIRSWSR1) :
    (LIRSWSR1.stackPruning s).hit = s.hit := rfl

@[simp] theorem wsr1_stackPruning_miss (s : LIRSWSR1) :
    (LIRSWSR1.stackPruning s).miss = s.miss := rfl

@[simp] theorem wsr1_stackPruning_HIRSize (s : LIRSWSR1) :
    (LIRSWSR1.stackPruning s).HIRSize = s.HIRSize := rfl

@[simp] theorem wsr1_stackPruning_orderedList (s : LIRSWSR1) :
    (LIRSWSR1.stackPruning s).orderedList = s.orderedList := rfl

theorem wsr1_condition1_hit_le (s : LIRSWSR1) (r : Bool) :
    s.hit ≤ ((LIRSWSR1.condition1 s r).1).hit := by
  unfold LIRSWSR1.condition1
  dsimp only
  split
  · exact Nat.le_refl _
  · split
    · split
      · exact Nat.le_succ _
      · exact Nat.le_refl _
    · exact Nat.le_refl _

theorem wsr1_condition1_miss (s : LIRSWSR1) (r : Bool) :
    ((LIRSWSR1.condition1 s r).1).miss = s.miss := by
  unfold LIRSWSR1.condition1
  dsimp only
  split
  · rfl
  · split
    · split <;> rfl
    · rfl

theorem wsr1_condition1_HIRSize (s : LIRSWSR1) (r : Bool) :
    ((LIRSWSR1.condition1 s r).1).HIRSize = s.HIRSize := by
  unfold LIRSWSR1.condition1
  dsimp only
  split
  · rfl
  · split
    · split <;> rfl
    · rfl

theorem wsr1_condition3_hit (s : LIRSWSR1) (r : Bool) :
    ((LIRSWSR1.condition3 s r).1).hit = s.hit := by
  unfold LIRSWSR1.condition3
  dsimp only
  split
  · rfl
  · split
    · split <;> rfl
    · rfl

theorem wsr1_condition3_miss (s : LIRSWSR1) (r : Bool) :
    ((LIRSWSR1.condition3 s r).1).miss = s.miss := by
  unfold LIRSWSR1.condition3
  dsimp only
  split
  · rfl
  · split
    · split <;> rfl
    · rfl

theorem wsr1_condition3_HIRSize (s : LIRSWSR1) (r : Bool) :
    ((LIRSWSR1.condition3 s r).1).HIRSize = s.HIRSize := by
  unfold LIRSWSR1.condition3
  dsimp only
  split
  · rfl
  · split
    · split <;> rfl
    · rfl

theorem wsr1_condition1_orderedList (s : LIRSWSR1) (r : Bool)
    (h : (s.orderedStack.map Prod.fst).Nodup) :
    ((LIRSWSR1.condition1 s r).1).orderedList = s.orderedList := by
  unfold LIRSWSR1.condition1
  dsimp only
  split
  · rfl
  · rename_i key v rest heq
    rw [heq] at h
    simp only [List.map_cons, List.nodup_cons] at h
    have hnone : OrderedMap.Get rest key = none := omGet_eq_none_of_not_mem h.1
    split
    · simp only [LIRSWSR1.isBlockDirty, LIRSWSR1.isBlockCold, hnone]
      rfl
    · rfl

theorem wsr1_condition1_stack_nodup (s : LIRSWSR1) (r : Bool)
    (h : (s.orderedStack.map Prod.fst).Nodup) :
    ((((LIRSWSR1.condition1 s r).1).orderedStack).map Prod.fst).Nodup := by
  unfold LIRSWSR1.condition1
  dsimp only
  split
  · exact h
  · rename_i key v rest heq
    rw [heq] at h
    simp only [List.map_cons, List.nodup_cons] at h
    split
    · split
      · exact omDropWhile_nodup _ _ h.2
      · exact omDropWhile_nodup _ _ (omMoveLast_nodup _ (omSet_nodup _ _ h.2))
    · exact omDropWhile_nodup _ _ h.2

theorem wsr1_condition3_orderedList (s : LIRSWSR1) (r : Bool)
    (h : (s.orderedStack.map Prod.fst).Nodup) :
    ((LIRSWSR1.condition3 s r).1).orderedList = s.orderedList := by
  unfold LIRSWSR1.condition3
  dsimp only
  split
  · rfl
  · rename_i key v rest heq
    rw [heq] at h
    simp only [List.map_cons, List.nodup_cons] at h
    have hnone : OrderedMap.Get rest key = none := omGet_eq_none_of_not_mem h.1
    split
    · simp only [LIRSWSR1.isBlockDirty, LIRSWSR1.isBlockCold, hnone]
      rfl
    · rfl

theorem wsr1_condition3_stack_nodup (s : LIRSWSR1) (r : Bool)
    (h : (s.orderedStack.map Prod.fst).Nodup) :
    ((((LIRSWSR1.condition3 s r).1).orderedStack).map Prod.fst).Nodup := by
  unfold LIRSWSR1.condition3
  dsimp only
  split
  · exact h
  · rename_i key v rest heq
    rw [heq] at h
    simp only [List.map_cons, List.nodup_cons] at h
    split
    · split
      · exact omDropWhile_nodup _ _ h.2
      · exact omDropWhile_nodup _ _ (omMoveLast_nodup _ (omSet_nodup _ _ h.2))
    · exact omDropWhile_nodup _ _ h.2

theorem wsr1_addToStack_nodup (s : LIRSWSR1) (b : Int) (op : String)
    (h : (s.orderedStack.map Prod.fst).Nodup) :
    (((LIRSWSR1.addToStack s b op).orderedStack).map Prod.fst).Nodup := by
  unfold LIRSWSR1.addToStack
  split
  · dsimp only
    apply omMoveLast_nodup
    rw [omUpdate_keys]
    exact h
  · split
    · exact omSet_nodup _ _ h
    · exact omSet_nodup _ _ h

theorem wsr1_addToList_nodup (s : LIRSWSR1) (b : Int) (op : String)
    (h : (s.orderedStack.map Prod.fst).Nodup) :
    (((LIRSWSR1.addToList s b op).orderedStack).map Prod.fst).Nodup := by
  rw [wsr1_addToList_orderedStack]
  exact h

theorem wsr1_addToList_len (s : LIRSWSR1) (b : Int) (op : String)
    (hle : s.orderedList.length ≤ s.HIRSize) (hpos : 1 ≤ s.HIRSize) :
    (LIRSWSR1.addToList s b op).orderedList.length ≤ s.HIRSize := by
  unfold LIRSWSR1.addToList
  dsimp only
  split <;>
  · split
    · dsimp only
      refine le_trans (omSet_length_le _ _ _) ?_
      have h2 := omPopFirst_length s.orderedList
      omega
    · dsimp only
      refine le_trans (omSet_length_le _ _ _) ?_
      omega

theorem wsr1_condition1_false_orderedList (s : LIRSWSR1) :
    ((LIRSWSR1.condition1 s false).1).orderedList = s.orderedList := by
  unfold LIRSWSR1.condition1
  dsimp only
  split <;> rfl

theorem wsr1_handleLIRBlock_HIRSize (s : LIRSWSR1) (b : Int) (op : String) :
    ((LIRSWSR1.handleLIRBlock s b op).1).HIRSize = s.HIRSize := by
  unfold LIRSWSR1.handleLIRBlock
  dsimp only
  split
  · rfl
  · split <;> simp [wsr1_condition1_HIRSize]

theorem wsr1_handleLIRBlock_hit_le (s : LIRSWSR1) (b : Int) (op : String) :
    s.hit ≤ ((LIRSWSR1.handleLIRBlock s b op).1).hit := by
  unfold LIRSWSR1.handleLIRBlock
  dsimp only
  split
  · exact Nat.le_succ _
  · split
    · simp only [wsr1_addToStack_hit]
      exact le_trans (Nat.le_succ _)
        (wsr1_condition1_hit_le { s with hit := s.hit + 1 } false)
    · simp
  
theorem wsr1_handleLIRBlock_miss (s : LIRSWSR1) (b : Int) (op : String) :
    ((LIRSWSR1.handleLIRBlock s b op).1).miss = s.miss := by
  unfold LIRSWSR1.handleLIRBlock
  dsimp only
  split
  · rfl
  · split <;> simp [wsr1_condition1_miss]

theorem wsr1_handleLIRBlock_orderedList (s : LIRSWSR1) (b : Int) (op : String) :
    ((LIRSWSR1.handleLIRBlock s b op).1).orderedList = s.orderedList := by
  unfold LIRSWSR1.handleLIRBlock
  dsimp only
  split
  · rfl
  · split <;> simp [wsr1_condition1_false_orderedList]

theorem wsr1_handleLIRBlock_stack_nodup (s : LIRSWSR1) (b : Int) (op : String)
    (h : (s.orderedStack.map Prod.fst).Nodup) :
    ((((LIRSWSR1.handleLIRBlock s b op).1).orderedStack).map Prod.fst).Nodup := by
  unfold LIRSWSR1.handleLIRBlock
  dsimp only
  split
  · exact h
  · split
    · dsimp only
      exact omSet_nodup _ _
        (wsr1_addToStack_nodup _ b op (wsr1_condition1_stack_nodup _ false h))
    · dsimp only
      exact omSet_nodup _ _ (wsr1_addToStack_nodup _ b op h)

theorem wsr1_handleHIRResidentBlock_hit_le (s : LIRSWSR1) (b : Int) (op : String) :
    s.hit ≤ (LIRSWSR1.handleHIRResidentBlock s b op).hit := by
  unfold LIRSWSR1.handleHIRResidentBlock
  dsimp only
  split
  · simp only [wsr1_addToStack_hit]
    exact wsr1_condition1_hit_le (LIRSWSR1.removeFromList (LIRSWSR1.makeLIR s b) b) true
  · simp

theorem wsr1_handleHIRResidentBlock_miss (s : LIRSWSR1) (b : Int) (op : String) :
    (LIRSWSR1.handleHIRResidentBlock s b op).miss = s.miss := by
  unfold LIRSWSR1.handleHIRResidentBlock
  dsimp only
  split <;> simp [wsr1_condition1_miss]

theorem wsr1_handleHIRResidentBlock_HIRSize (s : LIRSWSR1) (b : Int) (op : String) :
    (LIRSWSR1.handleHIRResidentBlock s b op).HIRSize = s.HIRSize := by
  unfold LIRSWSR1.handleHIRResidentBlock
  dsimp only
  split <;> simp [wsr1_condition1_HIRSize]

theorem wsr1_handleHIRResidentBlock_len (s : LIRSWSR1) (b : Int) (op : String)
    (h : (s.orderedStack.map Prod.fst).Nodup) :
    (LIRSWSR1.handleHIRResidentBlock s b op).orderedList.length
      ≤ s.orderedList.length := by
  unfold LIRSWSR1.handleHIRResidentBlock
  dsimp only
  split
  · have hX : (((LIRSWSR1.removeFromList (LIRSWSR1.makeLIR s b) b).orderedStack).map
        Prod.fst).Nodup := h
    simp only [wsr1_addToStack_orderedList]
    rw [wsr1_condition1_orderedList _ true hX]
    simp only [wsr1_removeFromList_orderedList, wsr1_makeLIR_orderedList]
    exact omDelete_length_le _ _
  · simp only [wsr1_addToStack_orderedList]
    exact le_of_eq (omMoveLast_length _ _)

theorem wsr1_handleHIRResidentBlock_stack_nodup (s : LIRSWSR1) (b : Int) (op : String)
    (h : (s.orderedStack.map Prod.fst).Nodup) :
    (((LIRSWSR1.handleHIRResidentBlock s b op).orderedStack).map Prod.fst).Nodup := by
  unfold LIRSWSR1.handleHIRResidentBlock
  dsimp only
  split
  · exact wsr1_addToStack_nodup _ b op (wsr1_condition1_stack_nodup _ true h)
  · exact wsr1_addToStack_nodup _ b op h

theorem wsr1_handleHIRNonResidentBlock_hit (s : LIRSWSR1) (b : Int) (op : String) :
    (LIRSWSR1.handleHIRNonResidentBlock s b op).hit = s.hit := by
  unfold LIRSWSR1.handleHIRNonResidentBlock
  dsimp only
  split <;> simp [wsr1_condition3_hit]

theorem wsr1_handleHIRNonResidentBlock_miss (s : LIRSWSR1) (b : Int) (op : String) :
    (LIRSWSR1.handleHIRNonResidentBlock s b op).miss = s.miss + 1 := by
  unfold LIRSWSR1.handleHIRNonResidentBlock
  dsimp only
  split <;> simp [wsr1_condition3_miss]

theorem wsr1_handleHIRNonResidentBlock_HIRSize (s : LIRSWSR1) (b : Int) (op : String) :
    (LIRSWSR1.handleHIRNonResidentBlock s b op).HIRSize = s.HIRSize := by
  unfold LIRSWSR1.handleHIRNonResidentBlock
  dsimp only
  split <;> simp [wsr1_condition3_HIRSize]

theorem wsr1_handleHIRNonResidentBlock_len (s : LIRSWSR1) (b : Int) (op : String)
    (h : (s.orderedStack.map Prod.fst).Nodup)
    (hle : s.orderedList.length ≤ s.HIRSize) (hpos : 1 ≤ s.HIRSize) :
    (LIRSWSR1.handleHIRNonResidentBlock s b op).orderedList.length ≤ s.HIRSize := by
  unfold LIRSWSR1.handleHIRNonResidentBlock
  dsimp only
  split
  · have hX : (((LIRSWSR1.removeFromList (LIRSWSR1.makeLIR
        (LIRSWSR1.addToList { s with miss := s.miss + 1 } b op) b) b).orderedStack).map
        Prod.fst).Nodup := wsr1_addToList_nodup _ b op h
    simp only [wsr1_addToStack_orderedList]
    rw [wsr1_condition3_orderedList _ true hX]
    simp only [wsr1_removeFromList_orderedList, wsr1_makeLIR_orderedList]
    exact le_trans (omDelete_length_le _ _) (wsr1_addToList_len _ b op hle hpos)
  · simp only [wsr1_addToStack_orderedList]
    exact wsr1_addToList_len _ b op hle hpos

theorem wsr1_handleHIRNonResidentBlock_stack_nodup (s : LIRSWSR1) (b : Int) (op : String)
    (h : (s.orderedStack.map Prod.fst).Nodup) :
    (((LIRSWSR1.handleHIRNonResidentBlock s b op).orderedStack).map Prod.fst).Nodup := by
  unfold LIRSWSR1.handleHIRNonResidentBlock
  dsimp only
  split
  · exact wsr1_addToStack_nodup _ b op
      (wsr1_condition3_stack_nodup _ true (wsr1_addToList_nodup _ b op h))
  · exact wsr1_addToStack_nodup _ b op (wsr1_addToList_nodup _ b op h)

theorem wsr1_Get_HIRSize (s : LIRSWSR1) (t : Trace) :
    ((LIRSWSR1.Get s t).1).HIRSize = s.HIRSize := by
  unfold LIRSWSR1.Get
  dsimp only
  split
  · split <;> simp
  · split
    · simp [wsr1_handleLIRBlock_HIRSize]
    · split
      · simp [wsr1_handleHIRResidentBlock_HIRSize]
      · simp [wsr1_handleHIRNonResidentBlock_HIRSize]

theorem wsr1_Get_hit_miss_le (s : LIRSWSR1) (t : Trace) :
    s.hit ≤ ((LIRSWSR1.Get s t).1).hit ∧ s.miss ≤ ((LIRSWSR1.Get s t).1).miss := by
  unfold LIRSWSR1.Get
  dsimp only
  split
  · split <;> (constructor <;> (simp; try omega))
  · split
    · exact ⟨wsr1_handleLIRBlock_hit_le s t.Addr t.Op,
        le_of_eq (wsr1_handleLIRBlock_miss s t.Addr t.Op).symm⟩
    · split
      · exact ⟨wsr1_handleHIRResidentBlock_hit_le s t.Addr t.Op,
          le_of_eq (wsr1_handleHIRResidentBlock_miss s t.Addr t.Op).symm⟩
      · refine ⟨le_of_eq (wsr1_handleHIRNonResidentBlock_hit s t.Addr t.Op).symm, ?_⟩
        rw [wsr1_handleHIRNonResidentBlock_miss]
        exact Nat.le_succ _

theorem wsr1_Get_q_invariants (s : LIRSWSR1) (t : Trace)
    (h : (s.orderedStack.map Prod.fst).Nodup)
    (hle : s.orderedList.length ≤ s.HIRSize) (hpos : 1 ≤ s.HIRSize) :
    ((LIRSWSR1.Get s t).1).orderedList.length ≤ s.HIRSize ∧
    ((((LIRSWSR1.Get s t).1).orderedStack).map Prod.fst).Nodup := by
  unfold LIRSWSR1.Get
  dsimp only
  split
  · split <;>
    · constructor
      · simpa using hle
      · exact wsr1_addToStack_nodup _ t.Addr t.Op h
  · split
    · refine ⟨?_, wsr1_handleLIRBlock_stack_nodup s t.Addr t.Op h⟩
      rw [wsr1_handleLIRBlock_orderedList]
      exact hle
    · split
      · exact ⟨le_trans (wsr1_handleHIRResidentBlock_len s t.Addr t.Op h) hle,
          wsr1_handleHIRResidentBlock_stack_nodup s t.Addr t.Op h⟩
      · exact ⟨wsr1_handleHIRNonResidentBlock_len s t.Addr t.Op h hle hpos,
          wsr1_handleHIRNonResidentBlock_stack_nodup s t.Addr t.Op h⟩

theorem wsr1_run_q_bound (tr : List Trace) :
    ∀ s : LIRSWSR1, (s.orderedStack.map Prod.fst).Nodup →
      s.orderedList.length ≤ s.HIRSize → 1 ≤ s.HIRSize →
      (LIRSWSR1.run s tr).orderedList.length ≤ s.HIRSize := by
  induction tr with
  | nil => intro s h hle hpos; simpa [LIRSWSR1.run] using hle
  | cons t tr ih =>
    intro s h hle hpos
    have hstep := wsr1_Get_q_invariants s t h hle hpos
    have hsz := wsr1_Get_HIRSize s t
    have hrun : LIRSWSR1.run s (t :: tr) = LIRSWSR1.run ((LIRSWSR1.Get s t).1) tr := rfl
    rw [hrun]
    have := ih ((LIRSWSR1.Get s t).1) hstep.2 (by rw [hsz]; exact hstep.1)
      (by rw [hsz]; exact hpos)
    rw [hsz] at this
    exact this

@[simp] theorem wsr2_addToStack_hit (s : LIRSWSR2) (b : Int) (op : String) :
    (LIRSWSR2.addToStack s b op).hit = s.hit := by
  unfold LIRSWSR2.addToStack
  split
  · rfl
  · split <;> rfl

@[simp] theorem wsr2_addToStack_miss (s : LIRSWSR2) (b : Int) (op : String) :
    (LIRSWSR2.addToStack s b op).miss = s.miss := by
  unfold LIRSWSR2.addToStack
  split
  · rfl
  · split <;> rfl

@[simp] theorem wsr2_addToStack_HIRSize (s : LIRSWSR2) (b : Int) (op : String) :
    (LIRSWSR2.addToStack s b op).HIRSize = s.HIRSize := by
  unfold LIRSWSR2.addToStack
  split
  · rfl
  · split <;> rfl

@[simp] theorem wsr2_addToStack_orderedList (s : LIRSWSR2) (b : Int) (op : String) :
    (LIRSWSR2.addToStack s b op).orderedList = s.orderedList := by
  unfold LIRSWSR2.addToStack
  split
  · rfl
  · split <;> rfl

@[simp] theorem wsr2_addToList_hit (s : LIRSWSR2) (b : Int) (op : String) :
    (LIRSWSR2.addToList s b op).hit = s.hit := by
  unfold LIRSWSR2.addToList
  dsimp only
  split <;> split <;> rfl

@[simp] theorem wsr2_addToList_miss (s : LIRSWSR2) (b : Int) (op : String) :
    (LIRSWSR2.addToList s b op).miss = s.miss := by
  unfold LIRSWSR2.addToList
  dsimp only
  split <;> split <;> rfl

@[simp] theorem wsr2_addToList_HIRSize (s : LIRSWSR2) (b : Int) (op : String) :
    (LIRSWSR2.addToList s b op).HIRSize = s.HIRSize := by
  unfold LIRSWSR2.addToList
  dsimp only
  split <;> split <;> rfl

@[simp] theorem wsr2_addToList_orderedStack (s : LIRSWSR2) (b : Int) (op : String) :
    (LIRSWSR2.addToList s b op).orderedStack = s.orderedStack := by
  unfold LIRSWSR2.addToList
  dsimp only
  split <;> split <;> rfl

@[simp] theorem wsr2_removeFromList_hit (s : LIRSWSR2) (b : Int) :
    (LIRSWSR2.removeFromList s b).hit = s.hit := rfl

@[simp] theorem wsr2_removeFromList_miss (s : LIRSWSR2) (b : Int) :
    (LIRSWSR2.removeFromList s b).miss = s.miss := rfl

@[simp] theorem wsr2_removeFromList_HIRSize (s : LIRSWSR2) (b : Int) :
    (LIRSWSR2.removeFromList s b).HIRSize = s.HIRSize := rfl

@[simp] theorem wsr2_removeFromList_orderedStack (s : LIRSWSR2) (b : Int) :
    (LIRSWSR2.removeFromList s b).orderedStack = s.orderedStack := rfl

@[simp] theorem wsr2_removeFromList_orderedList (s : LIRSWSR2) (b : Int) :
    (LIRSWSR2.removeFromList s b).orderedList = OrderedMap.Delete s.orderedList b := rfl

@[simp] theorem wsr2_makeLIR_hit (s : LIRSWSR2) (b : Int) :
    (LIRSWSR2.makeLIR s b).hit = s.hit := rfl

@[simp] theorem wsr2_makeLIR_miss (s : LIRSWSR2) (b : Int) :
    (LIRSWSR2.makeLIR s b).miss = s.miss := rfl

@[simp] theorem wsr2_makeLIR_HIRSize (s : LIRSWSR2) (b : Int) :
    (LIRSWSR2.makeLIR s b).HIRSize = s.HIRSize := rfl

@[simp] theorem wsr2_makeLIR_orderedStack (s : LIRSWSR2) (b : Int) :
    (LIRSWSR2.makeLIR s b).orderedStack = s.orderedStack := rfl

@[simp] theorem wsr2_makeLIR_orderedList (s : LIRSWSR2) (b : Int) :
    (LIRSWSR2.makeLIR s b).orderedList = s.orderedList := rfl

@[simp] theorem wsr2_makeHIR_hit (s : LIRSWSR2) (b : Int) :
    (LIRSWSR2.makeHIR s b).hit = s.hit := rfl

@[simp] theorem wsr2_makeHIR_miss (s : LIRSWSR2) (b : Int) :
    (LIRSWSR2.makeHIR s b).miss = s.miss := rfl

@[simp] theorem wsr2_makeHIR_HIRSize (s : LIRSWSR2) (b : Int) :
    (LIRSWSR2.makeHIR s b).HIRSize = s.HIRSize := rfl

@[simp] theorem wsr2_makeHIR_orderedStack (s : LIRSWSR2) (b : Int) :
    (LIRSWSR2.makeHIR s b).orderedStack = s.orderedStack := rfl

@[simp] theorem wsr2_makeHIR_orderedList (s : LIRSWSR2) (b : Int) :
    (LIRSWSR2.makeHIR s b).orderedList = s.orderedList := rfl

@[simp] theorem wsr2_stackPruning_hit (s : LIRSWSR2) :
    (LIRSWSR2.stackPruning s).hit = s.hit := rfl

@[simp] theorem wsr2_stackPruning_miss (s : LIRSWSR2) :
    (LIRSWSR2.stackPruning s).miss = s.miss := rfl

@[simp] theorem wsr2_stackPruning_HIRSize (s : LIRSWSR2) :
    (LIRSWSR2.stackPruning s).HIRSize = s.HIRSize := rfl

@[simp] theorem wsr2_stackPruning_orderedList (s : LIRSWSR2) :
    (LIRSWSR2.stackPruning s).orderedList = s.orderedList := rfl

@[simp] theorem wsr2_incrementAccess_hit (s : LIRSWSR2) (b : Int) :
    (LIRSWSR2.incrementAccess s b).hit = s.hit := rfl

@[simp] theorem wsr2_incrementAccess_miss (s : LIRSWSR2) (b : Int) :
    (LIRSWSR2.incrementAccess s b).miss = s.miss := rfl

@[simp] theorem wsr2_incrementAccess_HIRSize (s : LIRSWSR2) (b : Int) :
    (LIRSWSR2.incrementAccess s b).HIRSize = s.HIRSize := rfl

@[simp] theorem wsr2_incrementAccess_orderedList (s : LIRSWSR2) (b : Int) :
    (LIRSWSR2.incrementAccess s b).orderedList = s.orderedList := rfl

theorem wsr2_condition1_hit (s : LIRSWSR2) (r : Bool) :
    ((LIRSWSR2.condition1 s r).1).hit = s.hit := by
  unfold LIRSWSR2.condition1
  dsimp only
  split
  · rfl
  · split
    · split <;> rfl
    · rfl

theorem wsr2_condition1_miss_le (s : LIRSWSR2) (r : Bool) :
    s.miss ≤ ((LIRSWSR2.condition1 s r).1).miss := by
  unfold LIRSWSR2.condition1
  dsimp only
  split
  · exact Nat.le_refl _
  · split
    · split
      · exact Nat.le_refl _
      · exact Nat.le_succ _
    · exact Nat.le_refl _

theorem wsr2_condition1_HIRSize (s : LIRSWSR2) (r : Bool) :
    ((LIRSWSR2.condition1 s r).1).HIRSize = s.HIRSize := by
  unfold LIRSWSR2.condition1
  dsimp only
  split
  · rfl
  · split
    · split <;> rfl
    · rfl

theorem wsr2_condition1_orderedList (s : LIRSWSR2) (r : Bool)
    (h : (s.orderedStack.map Prod.fst).Nodup) :
    ((LIRSWSR2.condition1 s r).1).orderedList = s.orderedList := by
  unfold LIRSWSR2.condition1
  dsimp only
  split
  · rfl
  · rename_i key v rest heq
    rw [heq] at h
    simp only [List.map_cons, List.nodup_cons] at h
    have hnone : OrderedMap.Get rest key = none := omGet_eq_none_of_not_mem h.1
    split
    · simp only [LIRSWSR2.isBlockColdDirty, LIRSWSR2.isColdFlag, hnone]
      rfl
    · rfl

theorem wsr2_condition1_stack_nodup (s : LIRSWSR2) (r : Bool)
    (h : (s.orderedStack.map Prod.fst).Nodup) :
    ((((LIRSWSR2.condition1 s r).1).orderedStack).map Prod.fst).Nodup := by
  unfold LIRSWSR2.condition1
  dsimp only
  split
  · exact h
  · rename_i key v rest heq
    rw [heq] at h
    simp only [List.map_cons, List.nodup_cons] at h
    split
    · split
      · exact omDropWhile_nodup _ _ h.2
      · exact omDropWhile_nodup _ _ (omMoveLast_nodup _ (omSet_nodup _ _ h.2))
    · exact omDropWhile_nodup _ _ h.2

theorem wsr2_condition3_hit (s : LIRSWSR2) (r : Bool) :
    ((LIRSWSR2.condition3 s r).1).hit = s.hit := by
  unfold LIRSWSR2.condition3
  dsimp only
  split
  · rfl
  · split
    · split <;> rfl
    · rfl

theorem wsr2_condition3_miss_le (s : LIRSWSR2) (r : Bool) :
    s.miss ≤ ((LIRSWSR2.condition3 s r).1).miss := by
  unfold LIRSWSR2.condition3
  dsimp only
  split
  · exact Nat.le_refl _
  · split
    · split
      · exact Nat.le_refl _
      · exact Nat.le_succ _
    · exact Nat.le_refl _

theorem wsr2_condition3_HIRSize (s : LIRSWSR2) (r : Bool) :
    ((LIRSWSR2.condition3 s r).1).HIRSize = s.HIRSize := by
  unfold LIRSWSR2.condition3
  dsimp only
  split
  · rfl
  · split
    · split <;> rfl
    · rfl

theorem wsr2_condition3_orderedList (s : LIRSWSR2) (r : Bool)
    (h : (s.orderedStack.map Prod.fst).Nodup) :
    ((LIRSWSR2.condition3 s r).1).orderedList = s.orderedList := by
  unfold LIRSWSR2.condition3
  dsimp only
  split
  · rfl
  · rename_i key v rest heq
    rw [heq] at h
    simp only [List.map_cons, List.nodup_cons] at h
    have hnone : OrderedMap.Get rest key = none := omGet_eq_none_of_not_mem h.1
    split
    · simp only [LIRSWSR2.isBlockColdDirty, LIRSWSR2.isColdFlag, hnone]
      rfl
    · rfl

theorem wsr2_condition3_stack_nodup (s : LIRSWSR2) (r : Bool)
    (h : (s.orderedStack.map Prod.fst).Nodup) :
    ((((LIRSWSR2.condition3 s r).1).orderedStack).map Prod.fst).Nodup := by
  unfold LIRSWSR2.condition3
  dsimp only
  split
  · exact h
  · rename_i key v rest heq
    rw [heq] at h
    simp only [List.map_cons, List.nodup_cons] at h
    split
    · split
      · exact omDropWhile_nodup _ _ h.2
      · exact omDropWhile_nodup _ _ (omMoveLast_nodup _ (omSet_nodup _ _ h.2))
    · exact omDropWhile_nodup _ _ h.2

theorem wsr2_condition1_false_orderedList (s : LIRSWSR2) :
    ((LIRSWSR2.condition1 s false).1).orderedList = s.orderedList := by
  unfold LIRSWSR2.condition1
  dsimp only
  split <;> rfl

theorem wsr2_addToStack_nodup (s : LIRSWSR2) (b : Int) (op : String)
    (h : (s.orderedStack.map Prod.fst).Nodup) :
    (((LIRSWSR2.addToStack s b op).orderedStack).map Prod.fst).Nodup := by
  unfold LIRSWSR2.addToStack
  split
  · exact omMoveLast_nodup _ h
  · split
    · exact omSet_nodup _ _ h
    · exact omSet_nodup _ _ h

theorem wsr2_addToList_nodup (s : LIRSWSR2) (b : Int) (op : String)
    (h : (s.orderedStack.map Prod.fst).Nodup) :
    (((LIRSWSR2.addToList s b op).orderedStack).map Prod.fst).Nodup := by
  rw [wsr2_addToList_orderedStack]
  exact h

theorem wsr2_incrementAccess_nodup (s : LIRSWSR2) (b : Int)
    (h : (s.orderedStack.map Prod.fst).Nodup) :
    (((LIRSWSR2.incrementAccess s b).orderedStack).map Prod.fst).Nodup := by
  unfold LIRSWSR2.incrementAccess
  dsimp only
  rw [omUpdate_keys]
  exact h

theorem wsr2_addToList_len (s : LIRSWSR2) (b : Int) (op : String)
    (hle : s.orderedList.length ≤ s.HIRSize) (hpos : 1 ≤ s.HIRSize) :
    (LIRSWSR2.addToList s b op).orderedList.length ≤ s.HIRSize := by
  unfold LIRSWSR2.addToList
  dsimp only
  split <;>
  · split
    · dsimp only
      refine le_trans (omSet_length_le _ _ _) ?_
      have h2 := omPopFirst_length s.orderedList
      omega
    · dsimp only
      refine le_trans (omSet_length_le _ _ _) ?_
      omega

theorem wsr2_handleLIRBlock_HIRSize (s : LIRSWSR2) (b : Int) (op : String) :
    ((LIRSWSR2.handleLIRBlock s b op).1).HIRSize = s.HIRSize := by
  unfold LIRSWSR2.handleLIRBlock
  dsimp only
  split
  · rfl
  · split <;> simp [wsr2_condition1_HIRSize]

theorem wsr2_handleLIRBlock_hit (s : LIRSWSR2) (b : Int) (op : String) :
    ((LIRSWSR2.handleLIRBlock s b op).1).hit = s.hit + 1 := by
  unfold LIRSWSR2.handleLIRBlock
  dsimp only
  split
  · rfl
  · split <;> simp [wsr2_condition1_hit]

theorem wsr2_handleLIRBlock_miss_le (s : LIRSWSR2) (b : Int) (op : String) :
    s.miss ≤ ((LIRSWSR2.handleLIRBlock s b op).1).miss := by
  unfold LIRSWSR2.handleLIRBlock
  dsimp only
  split
  · exact Nat.le_refl _
  · split
    · simp only [wsr2_incrementAccess_miss, wsr2_addToStack_miss]
      exact wsr2_condition1_miss_le { s with hit := s.hit + 1 } false
    · simp

theorem wsr2_handleLIRBlock_orderedList (s : LIRSWSR2) (b : Int) (op : String) :
    ((LIRSWSR2.handleLIRBlock s b op).1).orderedList = s.orderedList := by
  unfold LIRSWSR2.handleLIRBlock
  dsimp only
  split
  · rfl
  · split <;> simp [wsr2_condition1_false_orderedList]

theorem wsr2_handleLIRBlock_stack_nodup (s : LIRSWSR2) (b : Int) (op : String)
    (h : (s.orderedStack.map Prod.fst).Nodup) :
    ((((LIRSWSR2.handleLIRBlock s b op).1).orderedStack).map Prod.fst).Nodup := by
  unfold LIRSWSR2.handleLIRBlock
  dsimp only
  split
  · exact h
  · split
    · dsimp only
      apply wsr2_incrementAccess_nodup
      dsimp only
      exact omSet_nodup _ _
        (wsr2_addToStack_nodup _ b op (wsr2_condition1_stack_nodup _ false h))
    · dsimp only
      apply wsr2_incrementAccess_nodup
      dsimp only
      exact omSet_nodup _ _ (wsr2_addToStack_nodup _ b op h)

theorem wsr2_handleHIRResidentBlock_hit (s : LIRSWSR2) (b : Int) (op : String) :
    (LIRSWSR2.handleHIRResidentBlock s b op).hit = s.hit + 1 := by
  unfold LIRSWSR2.handleHIRResidentBlock
  dsimp only
  split <;> simp [wsr2_condition1_hit]

theorem wsr2_handleHIRResidentBlock_miss_le (s : LIRSWSR2) (b : Int) (op : String) :
    s.miss ≤ (LIRSWSR2.handleHIRResidentBlock s b op).miss := by
  unfold LIRSWSR2.handleHIRResidentBlock
  dsimp only
  split
  · simp only [wsr2_incrementAccess_miss, wsr2_addToStack_miss]
    exact wsr2_condition1_miss_le
      (LIRSWSR2.removeFromList (LIRSWSR2.makeLIR { s with hit := s.hit + 1 } b) b) true
  · simp only [wsr2_incrementAccess_miss, wsr2_addToStack_miss]
    exact wsr2_condition1_miss_le
      { s with hit := s.hit + 1, orderedList := OrderedMap.MoveLast s.orderedList b } true

theorem wsr2_handleHIRResidentBlock_HIRSize (s : LIRSWSR2) (b : Int) (op : String) :
    (LIRSWSR2.handleHIRResidentBlock s b op).HIRSize = s.HIRSize := by
  unfold LIRSWSR2.handleHIRResidentBlock
  dsimp only
  split <;> simp [wsr2_condition1_HIRSize]

theorem wsr2_handleHIRResidentBlock_len (s : LIRSWSR2) (b : Int) (op : String)
    (h : (s.orderedStack.map Prod.fst).Nodup) :
    (LIRSWSR2.handleHIRResidentBlock s b op).orderedList.length
      ≤ s.orderedList.length := by
  unfold LIRSWSR2.handleHIRResidentBlock
  dsimp only
  split
  · have hX : (((LIRSWSR2.removeFromList (LIRSWSR2.makeLIR { s with hit := s.hit + 1 } b)
        b).orderedStack).map Prod.fst).Nodup := h
    simp only [wsr2_incrementAccess_orderedList, wsr2_addToStack_orderedList]
    rw [wsr2_condition1_orderedList _ true hX]
    simp only [wsr2_removeFromList_orderedList, wsr2_makeLIR_orderedList]
    exact omDelete_length_le _ _
  · have hX : ((({ s with hit := s.hit + 1, orderedList := OrderedMap.MoveLast s.orderedList b } : LIRSWSR2).orderedStack).map Prod.fst).Nodup := h
    simp only [wsr2_incrementAccess_orderedList, wsr2_addToStack_orderedList]
    rw [wsr2_condition1_orderedList _ true hX]
    exact le_of_eq (omMoveLast_length _ _)

theorem wsr2_handleHIRResidentBlock_stack_nodup (s : LIRSWSR2) (b : Int) (op : String)
    (h : (s.orderedStack.map Prod.fst).Nodup) :
    (((LIRSWSR2.handleHIRResidentBlock s b op).orderedStack).map Prod.fst).Nodup := by
  unfold LIRSWSR2.handleHIRResidentBlock
  dsimp only
  split
  · exact wsr2_incrementAccess_nodup _ b
      (wsr2_addToStack_nodup _ b op (wsr2_condition1_stack_nodup
        (LIRSWSR2.removeFromList (LIRSWSR2.makeLIR { s with hit := s.hit + 1 } b) b) true h))
  · exact wsr2_incrementAccess_nodup _ b
      (wsr2_addToStack_nodup _ b op (wsr2_condition1_stack_nodup { s with hit := s.hit + 1, orderedList := OrderedMap.MoveLast s.orderedList b } true h))

theorem wsr2_handleHIRNonResidentBlock_hit (s : LIRSWSR2) (b : Int) (op : String) :
    (LIRSWSR2.handleHIRNonResidentBlock s b op).hit = s.hit := by
  unfold LIRSWSR2.handleHIRNonResidentBlock
  dsimp only
  split <;> simp [wsr2_condition3_hit]

theorem wsr2_handleHIRNonResidentBlock_miss_le (s : LIRSWSR2) (b : Int) (op : String) :
    s.miss + 1 ≤ (LIRSWSR2.handleHIRNonResidentBlock s b op).miss := by
  unfold LIRSWSR2.handleHIRNonResidentBlock
  dsimp only
  split
  · simp only [wsr2_incrementAccess_miss, wsr2_addToStack_miss]
    have hm := wsr2_condition3_miss_le (LIRSWSR2.removeFromList (LIRSWSR2.makeLIR
      (LIRSWSR2.addToList { s with miss := s.miss + 1 } b op) b) b) true
    simp only [wsr2_removeFromList_miss, wsr2_makeLIR_miss, wsr2_addToList_miss] at hm
    exact hm
  · simp

theorem wsr2_handleHIRNonResidentBlock_HIRSize (s : LIRSWSR2) (b : Int) (op : String) :
    (LIRSWSR2.handleHIRNonResidentBlock s b op).HIRSize = s.HIRSize := by
  unfold LIRSWSR2.handleHIRNonResidentBlock
  dsimp only
  split <;> simp [wsr2_condition3_HIRSize]

theorem wsr2_handleHIRNonResidentBlock_len (s : LIRSWSR2) (b : Int) (op : String)
    (h : (s.orderedStack.map Prod.fst).Nodup)
    (hle : s.orderedList.length ≤ s.HIRSize) (hpos : 1 ≤ s.HIRSize) :
    (LIRSWSR2.handleHIRNonResidentBlock s b op).orderedList.length ≤ s.HIRSize := by
  unfold LIRSWSR2.handleHIRNonResidentBlock
  dsimp only
  split
  · have hX : (((LIRSWSR2.removeFromList (LIRSWSR2.makeLIR
        (LIRSWSR2.addToList { s with miss := s.miss + 1 } b op) b) b).orderedStack).map
        Prod.fst).Nodup := wsr2_addToList_nodup _ b op h
    simp only [wsr2_incrementAccess_orderedList, wsr2_addToStack_orderedList]
    rw [wsr2_condition3_orderedList _ true hX]
    simp only [wsr2_removeFromList_orderedList, wsr2_makeLIR_orderedList]
    exact le_trans (omDelete_length_le _ _) (wsr2_addToList_len _ b op hle hpos)
  · simp only [wsr2_incrementAccess_orderedList, wsr2_addToStack_orderedList,
      wsr2_makeHIR_orderedList]
    exact wsr2_addToList_len _ b op hle hpos

theorem wsr2_handleHIRNonResidentBlock_stack_nodup (s : LIRSWSR2) (b : Int) (op : String)
    (h : (s.orderedStack.map Prod.fst).Nodup) :
    (((LIRSWSR2.handleHIRNonResidentBlock s b op).orderedStack).map Prod.fst).Nodup := by
  unfold LIRSWSR2.handleHIRNonResidentBlock
  dsimp only
  split
  · apply wsr2_incrementAccess_nodup
    dsimp only
    exact omSet_nodup _ _ (wsr2_addToStack_nodup _ b op
      (wsr2_condition3_stack_nodup (LIRSWSR2.removeFromList (LIRSWSR2.makeLIR
        (LIRSWSR2.addToList { s with miss := s.miss + 1 } b op) b) b) true
        (wsr2_addToList_nodup _ b op h)))
  · apply wsr2_incrementAccess_nodup
    dsimp only
    exact omSet_nodup _ _ (wsr2_addToStack_nodup _ b op (wsr2_addToList_nodup _ b op h))

theorem wsr2_Get_HIRSize (s : LIRSWSR2) (t : Trace) :
    ((LIRSWSR2.Get s t).1).HIRSize = s.HIRSize := by
  unfold LIRSWSR2.Get
  dsimp only
  split
  · split <;> simp
  · split
    · simp [wsr2_handleLIRBlock_HIRSize]
    · split
      · simp [wsr2_handleHIRResidentBlock_HIRSize]
      · simp [wsr2_handleHIRNonResidentBlock_HIRSize]

theorem wsr2_Get_hit_miss_le (s : LIRSWSR2) (t : Trace) :
    s.hit ≤ ((LIRSWSR2.Get s t).1).hit ∧ s.miss ≤ ((LIRSWSR2.Get s t).1).miss := by
  unfold LIRSWSR2.Get
  dsimp only
  split
  · split <;> (constructor <;> (simp; try omega))
  · split
    · constructor
      · rw [wsr2_handleLIRBlock_hit]
        exact Nat.le_succ _
      · exact wsr2_handleLIRBlock_miss_le s t.Addr t.Op
    · split
      · constructor
        · rw [wsr2_handleHIRResidentBlock_hit]
          exact Nat.le_succ _
        · exact wsr2_handleHIRResidentBlock_miss_le s t.Addr t.Op
      · constructor
        · exact le_of_eq (wsr2_handleHIRNonResidentBlock_hit s t.Addr t.Op).symm
        · exact le_trans (Nat.le_succ _) (wsr2_handleHIRNonResidentBlock_miss_le s t.Addr t.Op)

theorem wsr2_Get_q_invariants (s : LIRSWSR2) (t : Trace)
    (h : (s.orderedStack.map Prod.fst).Nodup)
    (hle : s.orderedList.length ≤ s.HIRSize) (hpos : 1 ≤ s.HIRSize) :
    ((LIRSWSR2.Get s t).1).orderedList.length ≤ s.HIRSize ∧
    ((((LIRSWSR2.Get s t).1).orderedStack).map Prod.fst).Nodup := by
  unfold LIRSWSR2.Get
  dsimp only
  split
  · split <;>
    · constructor
      · simpa using hle
      · exact wsr2_addToStack_nodup _ t.Addr t.Op h
  · split
    · refine ⟨?_, wsr2_handleLIRBlock_stack_nodup s t.Addr t.Op h⟩
      rw [wsr2_handleLIRBlock_orderedList]
      exact hle
    · split
      · exact ⟨le_trans (wsr2_handleHIRResidentBlock_len s t.Addr t.Op h) hle,
          wsr2_handleHIRResidentBlock_stack_nodup s t.Addr t.Op h⟩
      · exact ⟨wsr2_handleHIRNonResidentBlock_len s t.Addr t.Op h hle hpos,
          wsr2_handleHIRNonResidentBlock_stack_nodup s t.Addr t.Op h⟩

theorem wsr2_run_q_bound (tr : List Trace) :
    ∀ s : LIRSWSR2, (s.orderedStack.map Prod.fst).Nodup →
      s.orderedList.length ≤ s.HIRSize → 1 ≤ s.HIRSize →
      (LIRSWSR2.run s tr).orderedList.length ≤ s.HIRSize := by
  induction tr with
  | nil => intro s h hle hpos; simpa [LIRSWSR2.run] using hle
  | cons t tr ih =>
    intro s h hle hpos
    have hstep := wsr2_Get_q_invariants s t h hle hpos
    have hsz := wsr2_Get_HIRSize s t
    have hrun : LIRSWSR2.run s (t :: tr) = LIRSWSR2.run ((LIRSWSR2.Get s t).1) tr := rfl
    rw [hrun]
    have := ih ((LIRSWSR2.Get s t).1) hstep.2 (by rw [hsz]; exact hstep.1)
      (by rw [hsz]; exact hpos)
    rw [hsz] at this
    exact this

theorem wsr1_run_HIRSize (tr : List Trace) :
    ∀ s : LIRSWSR1, (LIRSWSR1.run s tr).HIRSize = s.HIRSize := by
  induction tr with
  | nil => intro s; rfl
  | cons t tr ih =>
    intro s
    have hrun : LIRSWSR1.run s (t :: tr) = LIRSWSR1.run ((LIRSWSR1.Get s t).1) tr := rfl
    rw [hrun, ih, wsr1_Get_HIRSize]

theorem wsr2_run_HIRSize (tr : List Trace) :
    ∀ s : LIRSWSR2, (LIRSWSR2.run s tr).HIRSize = s.HIRSize := by
  induction tr with
  | nil => intro s; rfl
  | cons t tr ih =>
    intro s
    have hrun : LIRSWSR2.run s (t :: tr) = LIRSWSR2.run ((LIRSWSR2.Get s t).1) tr := rfl
    rw [hrun, ih, wsr2_Get_HIRSize]

/-- C1: evaluation of the first and second LIRS-WSR variants at the failing
input NewLIRSWSR(2,50), trace R1 R2 R2. After R1 R2 the stack metadata of
block 1 has access count 0, so block 1 is flagged cold when the third access
promotes block 2 and condition1(true) pops block 1; the claim (and the
comments in condition1) say a cold block is demoted to HIR and appended to Q,
but in both variants block 1 stays in the LIR set, is absent from Q, and is
reinserted into S, because the dirty/cold checks query the stack after the
pop and always return false. -/
theorem C1_eval_at_failing_input :
    ((OrderedMap.Get (LIRSWSR1.run (LIRSWSR1.NewLIRSWSR 2 50)
        [⟨1, "R"⟩, ⟨2, "R"⟩]).orderedStack 1).map (fun i => i.Access) = some 0 ∧
     1 ∈ (LIRSWSR1.run (LIRSWSR1.NewLIRSWSR 2 50) [⟨1, "R"⟩, ⟨2, "R"⟩, ⟨2, "R"⟩]).LIR ∧
     OrderedMap.Get (LIRSWSR1.run (LIRSWSR1.NewLIRSWSR 2 50)
        [⟨1, "R"⟩, ⟨2, "R"⟩, ⟨2, "R"⟩]).orderedList 1 = none ∧
     1 ∉ (LIRSWSR1.run (LIRSWSR1.NewLIRSWSR 2 50) [⟨1, "R"⟩, ⟨2, "R"⟩, ⟨2, "R"⟩]).HIR ∧
     (OrderedMap.Get (LIRSWSR1.run (LIRSWSR1.NewLIRSWSR 2 50)
        [⟨1, "R"⟩, ⟨2, "R"⟩, ⟨2, "R"⟩]).orderedStack 1).isSome = true) ∧
    ((OrderedMap.Get (LIRSWSR2.run (LIRSWSR2.NewLIRSWSR 2 50)
        [⟨1, "R"⟩, ⟨2, "R"⟩]).orderedStack 1).map (fun i => i.Access) = some 0 ∧
     1 ∈ (LIRSWSR2.run (LIRSWSR2.NewLIRSWSR 2 50) [⟨1, "R"⟩, ⟨2, "R"⟩, ⟨2, "R"⟩]).LIR ∧
     OrderedMap.Get (LIRSWSR2.run (LIRSWSR2.NewLIRSWSR 2 50)
        [⟨1, "R"⟩, ⟨2, "R"⟩, ⟨2, "R"⟩]).orderedList 1 = none ∧
     1 ∉ (LIRSWSR2.run (LIRSWSR2.NewLIRSWSR 2 50) [⟨1, "R"⟩, ⟨2, "R"⟩, ⟨2, "R"⟩]).HIR ∧
     (OrderedMap.Get (LIRSWSR2.run (LIRSWSR2.NewLIRSWSR 2 50)
        [⟨1, "R"⟩, ⟨2, "R"⟩, ⟨2, "R"⟩]).orderedStack 1).isSome = true) := by
  decide

/-- C2: counterexample. On the LIRS engine with cacheSize 2 and hirPercent 50
(LIRCapacity 1, HIRCapacity 1), the read trace 1 2 3 2 1 1 ends with two
blocks in the LIR set, exceeding LIRCapacity; and with cacheSize 1 and
hirPercent 0 (HIRCapacity 0) the read trace 1 2 ends with one entry in list Q,
exceeding HIRCapacity. -/
theorem C2_counterexample :
    ¬((LIRS.run (LIRS.NewLIRS 2 50)
        [⟨1, "R"⟩, ⟨2, "R"⟩, ⟨3, "R"⟩, ⟨2, "R"⟩, ⟨1, "R"⟩, ⟨1, "R"⟩]).LIR.length ≤
      (LIRS.run (LIRS.NewLIRS 2 50)
        [⟨1, "R"⟩, ⟨2, "R"⟩, ⟨3, "R"⟩, ⟨2, "R"⟩, ⟨1, "R"⟩, ⟨1, "R"⟩]).LIRSize) ∧
    ¬((LIRS.run (LIRS.NewLIRS 1 0) [⟨1, "R"⟩, ⟨2, "R"⟩]).orderedList.length ≤
      (LIRS.run (LIRS.NewLIRS 1 0) [⟨1, "R"⟩, ⟨2, "R"⟩]).HIRSize) := by
  decide

/-- C2 (amended): after every Get on the LIRS engine and on both LIRS-WSR
variants constructed with HIRCapacity at least 1, the length of list Q is at
most HIRCapacity; and the number of resident blocks of the LRU engine never
exceeds cacheSize. (The LIR bound of the original claim is refuted by the
counterexample, and the Q bound fails when HIRCapacity is 0.) For the LIRS-WSR
variants the bound rests on two facts: addToList is the only live insertion
into Q and is capacity checked, and the demotion branch of
condition1/condition3 never inserts into Q because its metadata checks query
the stack after the pop (they always fail while the stack keys stay
duplicate free, an invariant of every reachable state). -/
theorem C2_amended :
    (∀ (c h : Nat) (tr : List Trace), 1 ≤ (LIRS.NewLIRS c h).HIRSize →
      (LIRS.run (LIRS.NewLIRS c h) tr).orderedList.length ≤
        (LIRS.run (LIRS.NewLIRS c h) tr).HIRSize) ∧
    (∀ (c : Nat) (tr : List Trace), (LRU.run (LRU.NewLRU c) tr).lrulist.length ≤ c) ∧
    (∀ (c h : Nat) (tr : List Trace), 1 ≤ (LIRSWSR1.NewLIRSWSR c h).HIRSize →
      (LIRSWSR1.run (LIRSWSR1.NewLIRSWSR c h) tr).orderedList.length ≤
        (LIRSWSR1.run (LIRSWSR1.NewLIRSWSR c h) tr).HIRSize) ∧
    (∀ (c h : Nat) (tr : List Trace), 1 ≤ (LIRSWSR2.NewLIRSWSR c h).HIRSize →
      (LIRSWSR2.run (LIRSWSR2.NewLIRSWSR c h) tr).orderedList.length ≤
        (LIRSWSR2.run (LIRSWSR2.NewLIRSWSR c h) tr).HIRSize) := by
  refine ⟨?_, ?_, ?_, ?_⟩
  · intro c h tr hpos
    rw [lirs_run_HIRSize]
    exact lirs_run_orderedList_length tr (LIRS.NewLIRS c h) (Nat.zero_le _) hpos
  · intro c tr
    obtain ⟨h1, h2⟩ := lru_run_invariant tr (LRU.NewLRU c) (by simp [LRU.NewLRU])
    have hm : (LRU.NewLRU c).maxlen = c := rfl
    rw [hm] at h1
    omega
  · intro c h tr hpos
    rw [wsr1_run_HIRSize]
    exact wsr1_run_q_bound tr (LIRSWSR1.NewLIRSWSR c h) List.nodup_nil (Nat.zero_le _) hpos
  · intro c h tr hpos
    rw [wsr2_run_HIRSize]
    exact wsr2_run_q_bound tr (LIRSWSR2.NewLIRSWSR c h) List.nodup_nil (Nat.zero_le _) hpos

/-- C2 witness: the amended theorem applied at cacheSize 2, hirPercent 50 and
a one-record trace on the LIRS engine and on both LIRS-WSR variants, and at
the LRU engine with cacheSize 2. -/
theorem C2_amended_witness :
    1 ≤ (LIRS.NewLIRS 2 50).HIRSize ∧
    (LIRS.run (LIRS.NewLIRS 2 50) [⟨1, "R"⟩]).orderedList.length ≤
      (LIRS.run (LIRS.NewLIRS 2 50) [⟨1, "R"⟩]).HIRSize ∧
    (LRU.run (LRU.NewLRU 2) [⟨1, "R"⟩]).lrulist.length ≤ 2 ∧
    (LIRSWSR1.run (LIRSWSR1.NewLIRSWSR 2 50) [⟨1, "R"⟩]).orderedList.length ≤
      (LIRSWSR1.run (LIRSWSR1.NewLIRSWSR 2 50) [⟨1, "R"⟩]).HIRSize ∧
    (LIRSWSR2.run (LIRSWSR2.NewLIRSWSR 2 50) [⟨1, "R"⟩]).orderedList.length ≤
      (LIRSWSR2.run (LIRSWSR2.NewLIRSWSR 2 50) [⟨1, "R"⟩]).HIRSize :=
  ⟨by decide, C2_amended.1 2 50 [⟨1, "R"⟩] (by decide), C2_amended.2.1 2 [⟨1, "R"⟩],
   C2_amended.2.2.1 2 50 [⟨1, "R"⟩] (by decide),
   C2_amended.2.2.2 2 50 [⟨1, "R"⟩] (by decide)⟩

/-- C3: counterexample. On the LIRS engine with cacheSize 2 and hirPercent 50
(so LIRCapacity 1, a valid construction with LIRCapacity at least 1), after
the read trace 1 2 3 2 the oldest entry of stack S is block 3, which is not a
member of the LIR set: the final addToStack of a Get can move the LIR bottom
block to the newest position after pruning already ran, exposing a non-LIR
bottom. -/
theorem C3_counterexample :
    ((LIRS.run (LIRS.NewLIRS 2 50)
        [⟨1, "R"⟩, ⟨2, "R"⟩, ⟨3, "R"⟩, ⟨2, "R"⟩]).orderedStack.head?.map (fun e => e.1))
      = some 3 ∧
    3 ∉ (LIRS.run (LIRS.NewLIRS 2 50) [⟨1, "R"⟩, ⟨2, "R"⟩, ⟨3, "R"⟩, ⟨2, "R"⟩]).LIR := by
  decide

/-- C3 (amended): immediately after every stackPruning call, on all three
engines, the oldest entry of stack S, if any, is a member of the LIR set; the
invariant need not survive to the end of the enclosing Get, whose final
addToStack may rotate the stack bottom away. -/
theorem C3_amended :
    (∀ s : LIRS,
      ((LIRS.stackPruning s).orderedStack.head?.all fun e => decide (e.1 ∈ s.LIR)) = true) ∧
    (∀ s : LIRSWSR1,
      ((LIRSWSR1.stackPruning s).orderedStack.head?.all fun e => decide (e.1 ∈ s.LIR)) = true) ∧
    (∀ s : LIRSWSR2,
      ((LIRSWSR2.stackPruning s).orderedStack.head?.all fun e => decide (e.1 ∈ s.LIR)) = true) := by
  refine ⟨?_, ?_, ?_⟩ <;>
  · intro s
    have h := head_dropWhile_neg (fun e => !(decide (e.1 ∈ s.LIR))) s.orderedStack
    simpa using h

/-- C4: counterexample. On both LIRS-WSR variants with cacheSize 2 and
hirPercent 50, after the 3-record read trace 1 2 2 the hit and miss counters
do not sum to 3: the first variant never counts the HIR-resident hit (sum 2),
and the second variant counts an extra miss inside the demotion retry branch
(sum 4). -/
theorem C4_counterexample :
    ((LIRSWSR1.run (LIRSWSR1.NewLIRSWSR 2 50) [⟨1, "R"⟩, ⟨2, "R"⟩, ⟨2, "R"⟩]).hit +
       (LIRSWSR1.run (LIRSWSR1.NewLIRSWSR 2 50) [⟨1, "R"⟩, ⟨2, "R"⟩, ⟨2, "R"⟩]).miss = 2 ∧
     ¬((LIRSWSR1.run (LIRSWSR1.NewLIRSWSR 2 50) [⟨1, "R"⟩, ⟨2, "R"⟩, ⟨2, "R"⟩]).hit +
       (LIRSWSR1.run (LIRSWSR1.NewLIRSWSR 2 50) [⟨1, "R"⟩, ⟨2, "R"⟩, ⟨2, "R"⟩]).miss = 3)) ∧
    ((LIRSWSR2.run (LIRSWSR2.NewLIRSWSR 2 50) [⟨1, "R"⟩, ⟨2, "R"⟩, ⟨2, "R"⟩]).hit +
       (LIRSWSR2.run (LIRSWSR2.NewLIRSWSR 2 50) [⟨1, "R"⟩, ⟨2, "R"⟩, ⟨2, "R"⟩]).miss = 4 ∧
     ¬((LIRSWSR2.run (LIRSWSR2.NewLIRSWSR 2 50) [⟨1, "R"⟩, ⟨2, "R"⟩, ⟨2, "R"⟩]).hit +
       (LIRSWSR2.run (LIRSWSR2.NewLIRSWSR 2 50) [⟨1, "R"⟩, ⟨2, "R"⟩, ⟨2, "R"⟩]).miss = 3)) := by
  decide

/-- C4 (amended): on the LIRS engine, after processing any n-record trace from
a fresh engine, hit plus miss equals n; and on every single Get step of the
LIRS engine and of both LIRS-WSR variants neither the hit counter nor the
miss counter decreases (every counter mutation is an increment apart from the
cold-start correction, which decrements a miss that the same call just
incremented, so the net effect is never a decrease). The hit-plus-miss sum
property does not hold for the LIRS-WSR variants. -/
theorem C4_amended :
    (∀ (c h : Nat) (tr : List Trace),
      (LIRS.run (LIRS.NewLIRS c h) tr).hit + (LIRS.run (LIRS.NewLIRS c h) tr).miss
        = tr.length) ∧
    (∀ (s : LIRS) (t : Trace),
      s.hit ≤ ((LIRS.Get s t).1).hit ∧ s.miss ≤ ((LIRS.Get s t).1).miss) ∧
    (∀ (s : LIRSWSR1) (t : Trace),
      s.hit ≤ ((LIRSWSR1.Get s t).1).hit ∧ s.miss ≤ ((LIRSWSR1.Get s t).1).miss) ∧
    (∀ (s : LIRSWSR2) (t : Trace),
      s.hit ≤ ((LIRSWSR2.Get s t).1).hit ∧ s.miss ≤ ((LIRSWSR2.Get s t).1).miss) := by
  refine ⟨?_, ?_, ?_, ?_⟩
  · intro c h tr
    have h1 := lirs_run_counters tr (LIRS.NewLIRS c h)
    have h2 : (LIRS.NewLIRS c h).hit = 0 := rfl
    have h3 : (LIRS.NewLIRS c h).miss = 0 := rfl
    rw [h2, h3] at h1
    omega
  · intro s t
    exact ⟨(lirs_Get_counters s t).2.1, (lirs_Get_counters s t).2.2⟩
  · intro s t
    exact wsr1_Get_hit_miss_le s t
  · intro s t
    exact wsr2_Get_hit_miss_le s t

/-- C5: counterexample. A state of the second LIRS-WSR variant in which a Get
on HIR-resident block 7 reaches condition1(true) with an empty stack S (the
demotion must pop S while S is empty): the error raised inside condition1 is
discarded and the Get call returns success, not an error. -/
theorem C5_counterexample :
    (LIRSWSR2.Get
      { LIRSWSR2.NewLIRSWSR 2 50 with orderedList := [(7, QVal.num 1)], LIR := [1] }
      ⟨7, "R"⟩).2 = none := by
  decide

/-- C5 (amended): the helpers that pop the stack report the empty-stack
condition as an error value (shown here for handleLIRBlock of the first
variant), but Get discards every such error on all three engines and always
returns success to its caller. -/
theorem C5_amended :
    (∀ (s : LIRS) (t : Trace), (LIRS.Get s t).2 = none) ∧
    (∀ (s : LIRSWSR1) (t : Trace), (LIRSWSR1.Get s t).2 = none) ∧
    (∀ (s : LIRSWSR2) (t : Trace), (LIRSWSR2.Get s t).2 = none) ∧
    (∀ (s : LIRSWSR1) (b : Int) (op : String), s.orderedStack = [] →
      (LIRSWSR1.handleLIRBlock s b op).2 = some "orderedStack is empty") := by
  refine ⟨?_, ?_, ?_, ?_⟩
  · intro s t
    unfold LIRS.Get
    dsimp only
    split <;>
    · split
      · rfl
      · split
        · rfl
        · split <;> rfl
  · intro s t
    unfold LIRSWSR1.Get
    dsimp only
    split
    · rfl
    · split
      · rfl
      · split <;> rfl
  · intro s t
    unfold LIRSWSR2.Get
    dsimp only
    split
    · rfl
    · split
      · rfl
      · split <;> rfl
  · intro s b op h
    unfold LIRSWSR1.handleLIRBlock
    dsimp only
    rw [h]

/-- C5 witness: the amended theorem applied at a fresh first-variant engine
(whose stack is empty) and at a fresh LIRS engine with a concrete record. -/
theorem C5_amended_witness :
    (LIRSWSR1.handleLIRBlock (LIRSWSR1.NewLIRSWSR 2 50) 5 "R").2
        = some "orderedStack is empty" ∧
    (LIRS.Get (LIRS.NewLIRS 2 50) ⟨1, "R"⟩).2 = none :=
  ⟨C5_amended.2.2.2 (LIRSWSR1.NewLIRSWSR 2 50) 5 "R" rfl,
   C5_amended.1 (LIRS.NewLIRS 2 50) ⟨1, "R"⟩⟩

/-- C6: counterexample. On the LIRS engine with cacheSize 4 and hirPercent 50,
the trace W1 W1 yields writeCount 2, although block 1 was already present in
stack S at the second write; the claim predicts writeCount 1. -/
theorem C6_counterexample :
    (LIRS.run (LIRS.NewLIRS 4 50) [⟨1, "W"⟩, ⟨1, "W"⟩]).writeCount = 2 ∧
    ¬((LIRS.run (LIRS.NewLIRS 4 50) [⟨1, "W"⟩, ⟨1, "W"⟩]).writeCount = 1) := by
  decide

/-- C6 (amended): on the LIRS engine every Get whose operation is "W"
increments the write counter by exactly one, regardless of whether the block
is already in stack S, and any other operation leaves it unchanged. -/
theorem C6_amended (s : LIRS) (t : Trace) :
    ((LIRS.Get s t).1).writeCount =
      if t.Op = "W" then s.writeCount + 1 else s.writeCount :=
  lirs_Get_writeCount s t

/-- C7: counterexample. On the first LIRS-WSR variant with cacheSize 2 and
hirPercent 50, after the write W1 the stack metadata of block 1 is dirty; a
subsequent repeat hit R1 on the LIR-resident block leaves block 1 tracked in
S but with its dirty flag cleared, because handleLIRBlock overwrites the
metadata with a fresh BlockInfo. -/
theorem C7_counterexample :
    (OrderedMap.Get (LIRSWSR1.run (LIRSWSR1.NewLIRSWSR 2 50)
        [⟨1, "W"⟩]).orderedStack 1).map (fun i => i.DirtyPage) = some true ∧
    (OrderedMap.Get (LIRSWSR1.run (LIRSWSR1.NewLIRSWSR 2 50)
        [⟨1, "W"⟩, ⟨1, "R"⟩]).orderedStack 1).map (fun i => i.DirtyPage) = some false := by
  decide

/-- C7 (amended): on every hit of an LIR-resident block with a non-empty
stack, both LIRS-WSR variants overwrite the stack metadata of the block with
a zero-valued cold BlockInfo whose dirty flag is false (the second variant
then increments the access count once): the dirty flag does not survive a
repeat LIR hit. -/
theorem C7_amended :
    (∀ (s : LIRSWSR1) (b : Int) (op : String), s.orderedStack ≠ [] →
      OrderedMap.Get ((LIRSWSR1.handleLIRBlock s b op).1).orderedStack b
        = some resetColdInfo) ∧
    (∀ (s : LIRSWSR2) (b : Int) (op : String), s.orderedStack ≠ [] →
      OrderedMap.Get ((LIRSWSR2.handleLIRBlock s b op).1).orderedStack b
        = some { resetColdInfo with Access := 1 }) := by
  constructor
  · intro s b op h
    unfold LIRSWSR1.handleLIRBlock
    dsimp only
    split
    · rename_i heq
      exact absurd heq h
    · split <;> (dsimp only; exact omGet_Set_self _ _ _)
  · intro s b op h
    unfold LIRSWSR2.handleLIRBlock
    dsimp only
    split
    · rename_i heq
      exact absurd heq h
    · split <;>
      · dsimp only
        simp only [LIRSWSR2.incrementAccess, omGet_Update_self, omGet_Set_self]
        rfl

/-- C7 witness: the amended theorem applied after the one-record trace W1 on
each variant, whose stack is the non-empty singleton of block 1. -/
theorem C7_amended_witness :
    OrderedMap.Get ((LIRSWSR1.handleLIRBlock
        (LIRSWSR1.run (LIRSWSR1.NewLIRSWSR 2 50) [⟨1, "W"⟩]) 1 "R").1).orderedStack 1
      = some resetColdInfo ∧
    OrderedMap.Get ((LIRSWSR2.handleLIRBlock
        (LIRSWSR2.run (LIRSWSR2.NewLIRSWSR 2 50) [⟨1, "W"⟩]) 1 "R").1).orderedStack 1
      = some { resetColdInfo with Access := 1 } :=
  ⟨C7_amended.1 (LIRSWSR1.run (LIRSWSR1.NewLIRSWSR 2 50) [⟨1, "W"⟩]) 1 "R" (by decide),
   C7_amended.2 (LIRSWSR2.run (LIRSWSR2.NewLIRSWSR 2 50) [⟨1, "W"⟩]) 1 "R" (by decide)⟩

/-- C8: counterexample. With cacheSize 1 and hirPercent 50 the derived
capacities are LIRCapacity 0 and HIRCapacity 0, whose sum is 0, not the
cacheSize 1. -/
theorem C8_counterexample :
    ¬((LIRS.NewLIRS 1 50).LIRSize + (LIRS.NewLIRS 1 50).HIRSize
        = (LIRS.NewLIRS 1 50).cacheSize) := by
  decide

/-- C8 (amended): for every cacheSize and hirPercent at most 100, the derived
capacities of the LIRS engine and of both LIRS-WSR variants agree, their sum
is at most cacheSize, and the sum equals cacheSize exactly when 100 divides
hirPercent times cacheSize. -/
theorem C8_amended : ∀ (c h : Nat), h ≤ 100 →
    (LIRS.NewLIRS c h).LIRSize + (LIRS.NewLIRS c h).HIRSize ≤ c ∧
    ((LIRS.NewLIRS c h).LIRSize + (LIRS.NewLIRS c h).HIRSize = c ↔ 100 ∣ h * c) ∧
    (LIRSWSR1.NewLIRSWSR c h).LIRSize + (LIRSWSR1.NewLIRSWSR c h).HIRSize
      = (LIRS.NewLIRS c h).LIRSize + (LIRS.NewLIRS c h).HIRSize ∧
    (LIRSWSR2.NewLIRSWSR c h).LIRSize + (LIRSWSR2.NewLIRSWSR c h).HIRSize
      = (LIRS.NewLIRS c h).LIRSize + (LIRS.NewLIRS c h).HIRSize := by
  intro c h hh
  have e1 : (LIRS.NewLIRS c h).LIRSize = (100 - h) * c / 100 := rfl
  have e2 : (LIRS.NewLIRS c h).HIRSize = h * c / 100 := rfl
  have hsum : (100 - h) * c + h * c = 100 * c := by
    have h100 : (100 - h) + h = 100 := by omega
    calc (100 - h) * c + h * c = ((100 - h) + h) * c := by ring
      _ = 100 * c := by rw [h100]
  refine ⟨?_, ?_, rfl, rfl⟩
  · rw [e1, e2]
    omega
  · rw [e1, e2]
    omega

/-- C8 witness: the amended theorem applied at cacheSize 2 and hirPercent 50,
where the sum of the capacities is exactly the cache size. -/
theorem C8_amended_witness :
    50 ≤ 100 ∧ (LIRS.NewLIRS 2 50).LIRSize + (LIRS.NewLIRS 2 50).HIRSize ≤ 2 :=
  ⟨by decide, (C8_amended 2 50 (by decide)).1⟩

/-- C9: the LRU engine with cacheSize 2 evicts block 1 when block 3 arrives
after the trace 1 2 3, leaving 3 and 2 resident; after the trace 1 2 1 3 it
evicts block 2 instead, because the repeat access refreshed block 1 to the
front of the recency list, leaving 3 and 1 resident. -/
theorem C9_lru_eviction_order :
    ((LRU.run (LRU.NewLRU 2) [⟨1, "R"⟩, ⟨2, "R"⟩, ⟨3, "R"⟩]).lrulist.map (fun n => n.lba)
        = [3, 2] ∧
     (LRU.run (LRU.NewLRU 2) [⟨1, "R"⟩, ⟨2, "R"⟩, ⟨3, "R"⟩]).tlba = [3, 2]) ∧
    ((LRU.run (LRU.NewLRU 2) [⟨1, "R"⟩, ⟨2, "R"⟩, ⟨1, "R"⟩, ⟨3, "R"⟩]).lrulist.map
          (fun n => n.lba) = [3, 1] ∧
     (LRU.run (LRU.NewLRU 2) [⟨1, "R"⟩, ⟨2, "R"⟩, ⟨1, "R"⟩, ⟨3, "R"⟩]).tlba = [3, 1]) := by
  decide

/-- C10: in the first LIRS-WSR variant, a Get with op W in steady state (LIR
set full) on a block absent from LIR, list Q and stack S increments
writeCount by exactly 2 and leaves dirty metadata for the block both in Q
(inserted by addToList) and in S (inserted by addToStack). -/
theorem C10_double_write_count : ∀ (s : LIRSWSR1) (b : Int),
    ¬(s.LIR.length < s.LIRSize) → b ∉ s.LIR →
    OrderedMap.Get s.orderedList b = none → OrderedMap.Get s.orderedStack b = none →
    ((LIRSWSR1.Get s ⟨b, "W"⟩).1).writeCount = s.writeCount + 2 ∧
    OrderedMap.Get ((LIRSWSR1.Get s ⟨b, "W"⟩).1).orderedList b
      = some (QVal.info
          { Address := b, Operation := "W", DirtyPage := true, ColdFlag := true, Access := 0 }) ∧
    OrderedMap.Get ((LIRSWSR1.Get s ⟨b, "W"⟩).1).orderedStack b
      = some { Address := b, Operation := "W", DirtyPage := true, ColdFlag := true, Access := 0 } := by
  intro s b hfull hlir hlist hstack
  unfold LIRSWSR1.Get
  dsimp only
  rw [if_neg hfull, if_neg hlir, hlist]
  simp only [Option.isSome_none, Bool.false_eq_true, if_false]
  unfold LIRSWSR1.handleHIRNonResidentBlock
  dsimp only
  have hstack1 : OrderedMap.Get
      (LIRSWSR1.addToList { s with miss := s.miss + 1 } b "W").orderedStack b = none := by
    rw [wsr1_addToList_orderedStack]
    exact hstack
  rw [hstack1]
  simp only [Option.isSome_none, Bool.false_eq_true, if_false]
  have hstack2 : OrderedMap.Get
      (LIRSWSR1.makeHIR (LIRSWSR1.addToList { s with miss := s.miss + 1 } b "W") b).orderedStack b
        = none := by
    rw [wsr1_makeHIR_orderedStack]
    exact hstack1
  obtain ⟨ha1, ha2, ha3⟩ := wsr1_addToStack_absent_W
    (LIRSWSR1.makeHIR (LIRSWSR1.addToList { s with miss := s.miss + 1 } b "W") b) b hstack2
  refine ⟨?_, ?_, ?_⟩
  · rw [ha1, wsr1_makeHIR_writeCount, wsr1_addToList_writeCount_W]
  · rw [ha3, wsr1_makeHIR_orderedList, wsr1_addToList_get_W]
  · rw [ha2]

/-- C10 witness: the theorem applied to a fresh first-variant engine with
cacheSize 1 and hirPercent 100 (LIRCapacity 0, so the LIR set is trivially
full) and the write access W7. -/
theorem C10_double_write_count_witness :
    ((LIRSWSR1.Get (LIRSWSR1.NewLIRSWSR 1 100) ⟨7, "W"⟩).1).writeCount
        = (LIRSWSR1.NewLIRSWSR 1 100).writeCount + 2 ∧
    OrderedMap.Get ((LIRSWSR1.Get (LIRSWSR1.NewLIRSWSR 1 100) ⟨7, "W"⟩).1).orderedList 7
      = some (QVal.info
          { Address := 7, Operation := "W", DirtyPage := true, ColdFlag := true, Access := 0 }) ∧
    OrderedMap.Get ((LIRSWSR1.Get (LIRSWSR1.NewLIRSWSR 1 100) ⟨7, "W"⟩).1).orderedStack 7
      = some { Address := 7, Operation := "W", DirtyPage := true, ColdFlag := true, Access := 0 } :=
  C10_double_write_count (LIRSWSR1.NewLIRSWSR 1 100) 7
    (by decide) (by decide) (by decide) (by decide)
